import Mathlib

/-!
Verification of the CleverProfits portal report-content pipeline.

The development shallowly embeds the algorithmic core of the repository:

* `src/lib/excel.ts` — sheet extraction (`extractCoreSheets`) and the
  financial cell/row classifier (`formatFinancialNumber`, `isRowTotal`,
  `isRowSubtotal`);
* `src/components/report-section.tsx` — the renderer's `isTotalRow` and the
  special-block extractor `parseSpecialSections`;
* the generate route's `parseReportSections` markdown section parser.

Strings are modelled as `List Char` (`Str`).  JavaScript string operations
(`trim`, `toLowerCase`, `includes`, `startsWith`, `endsWith`, first-occurrence
`replace`, `parseFloat`) are modelled by the executable functions below.
-/

/-- Strings of the embedded program are lists of characters. -/
abbrev Str := List Char

/-- Whitespace characters as matched by JavaScript `\s` / `trim` (ASCII part;
the inputs of this development are ASCII plus the dash punctuation). -/
def isWsChar (c : Char) : Bool :=
  c = ' ' || c = '\t' || c = '\n' || c = '\r' || c = '\x0b' || c = '\x0c'

/-- JavaScript `toLowerCase` (ASCII). -/
def strLower (s : Str) : Str := s.map Char.toLower

/-- JavaScript `startsWith pre s`: does `s` start with `pre`. -/
def strStarts : Str → Str → Bool
  | [], _ => true
  | _ :: _, [] => false
  | p :: ps, c :: cs => p = c && strStarts ps cs

/-- JavaScript `endsWith suf s`: does `s` end with `suf`. -/
def strEnds (suf s : Str) : Bool := strStarts suf.reverse s.reverse

/-- JavaScript `s.includes(sub)`: substring containment. -/
def strIncludes (sub : Str) : Str → Bool
  | [] => strStarts sub []
  | c :: rest => strStarts sub (c :: rest) || strIncludes sub rest

/-- JavaScript `trimStart`. -/
def jsTrimLeft (s : Str) : Str := s.dropWhile isWsChar

/-- JavaScript `trimEnd`. -/
def jsTrimRight (s : Str) : Str := (s.reverse.dropWhile isWsChar).reverse

/-- JavaScript `trim`. -/
def jsTrim (s : Str) : Str := jsTrimRight (jsTrimLeft s)

/-- The regex test `/\d/.test s`. -/
def strHasDigit (s : Str) : Bool := s.any Char.isDigit

/-- Helper of `replaceFirst` for a non-empty pattern. -/
def replaceFirstAux (pat rep : Str) : Str → Str
  | [] => []
  | c :: rest =>
    if strStarts pat (c :: rest) then rep ++ List.drop pat.length (c :: rest)
    else c :: replaceFirstAux pat rep rest

/-- JavaScript `s.replace(pat, rep)` with a plain-string pattern: replaces the
first occurrence only. -/
def replaceFirst (pat rep s : Str) : Str :=
  if pat = [] then rep ++ s else replaceFirstAux pat rep s

/-! ## Sheet extractor (`src/lib/excel.ts`) -/

/-- Core sheets required for financial reporting, in priority order
(`CORE_SHEETS`, excel.ts lines 15-33). -/
def CORE_SHEETS : List Str :=
  ["PL - RAW".data, "Dynamic PL".data, "BS - RAW".data,
   "Weekly Financial Review".data, "Monthly Comparative".data,
   "Revenue Chart Data".data, "COA - RAW".data,
   "Budget".data, "Forecast".data, "Annual P&L".data]

/-- The static alias table (`SHEET_NAME_ALIASES`, excel.ts lines 36-42). -/
def SHEET_NAME_ALIASES_TABLE : List (Str × List Str) :=
  [("PL - RAW".data,
    ["P&L - RAW".data, "PL-RAW".data, "P&L RAW".data, "Income Statement".data, "PL Raw".data]),
   ("Dynamic PL".data,
    ["Dynamic P&L".data, "DynamicPL".data, "Formatted PL".data, "P&L".data]),
   ("BS - RAW".data,
    ["BS-RAW".data, "BS RAW".data, "Balance Sheet".data, "BS Raw".data]),
   ("Weekly Financial Review".data,
    ["Weekly Review".data, "Financial Review".data, "Dashboard".data]),
   ("Monthly Comparative".data,
    ["Monthly Comparison".data, "MoM Comparative".data, "Comparative".data])]

/-- Alias lookup `SHEET_NAME_ALIASES[targetName]` (missing key yields no
aliases, matching the `if (aliases)` guard). -/
def SHEET_NAME_ALIASES (target : Str) : List Str :=
  ((SHEET_NAME_ALIASES_TABLE.find? (fun p => p.1 == target)).map (·.2)).getD []

/-- A workbook is modelled after `XLSX.read`'s output as its ordered sheet
list: each entry is the tab name paired with the CSV serialization that
`sheetToCsv` would produce for that tab. -/
abbrev Workbook := List (Str × Str)

/-- Sheet names of a workbook, in native order (`workbook.SheetNames`). -/
def sheetNames (wb : Workbook) : List Str := wb.map (·.1)

/-- Helper of `findSheetByName`: scan the alias list, and for each alias scan
the sheet names case-insensitively (excel.ts lines 68-78). -/
def findAliasSheet : List Str → List Str → Option Str
  | [], _ => none
  | a :: as, names =>
    match names.find? (fun n => strLower n == strLower a) with
    | some n => some n
    | none => findAliasSheet as names

/-- Find a sheet by name, checking case-insensitive direct matches first and
then aliases (`findSheetByName`, excel.ts lines 60-81). -/
def findSheetByName (wb : Workbook) (targetName : Str) : Option Str :=
  match (sheetNames wb).find? (fun n => strLower n == strLower targetName) with
  | some n => some n
  | none => findAliasSheet (SHEET_NAME_ALIASES targetName) (sheetNames wb)

/-- CSV of the named sheet (`workbook.Sheets[actualName]` + `sheetToCsv`). -/
def getSheetCsv (wb : Workbook) (name : Str) : Str :=
  ((wb.find? (fun p => p.1 == name)).map (·.2)).getD []

/-- Token estimate: `Math.ceil(text.length / 4)` (`estimateTokens`). -/
def estimateTokens (text : Str) : Nat := (text.length + 3) / 4

/-- An extracted sheet record (`ExtractedSheet`). -/
structure ExtractedSheet where
  name : Str
  csv : Str
  estimatedTokens : Nat
deriving DecidableEq, Repr

/-- The extraction result (`ExtractionResult`). -/
structure ExtractionResult where
  sheets : List ExtractedSheet
  totalTokens : Nat
  missingRequiredSheets : List Str
  allSheetNames : List Str
deriving DecidableEq, Repr

/-- One iteration of the extraction loop over `CORE_SHEETS` (excel.ts lines
128-151): resolve the target name; if found and within budget, append the
sheet and add its tokens, otherwise leave the state unchanged. -/
def extractStep (wb : Workbook) (maxTokens : Nat)
    (st : List ExtractedSheet × Nat) (targetName : Str) : List ExtractedSheet × Nat :=
  match findSheetByName wb targetName with
  | none => st
  | some actualName =>
    let csv := getSheetCsv wb actualName
    let tokens := estimateTokens csv
    if st.2 + tokens > maxTokens then st
    else (st.1 ++ [⟨actualName, csv, tokens⟩], st.2 + tokens)

/-- The greedy admission loop of `extractCoreSheets`. -/
def extractLoop (wb : Workbook) (maxTokens : Nat) : List ExtractedSheet × Nat :=
  CORE_SHEETS.foldl (extractStep wb maxTokens) ([], 0)

/-- The required-sheet check of `extractCoreSheets` (excel.ts lines 153-162).
Note that the source's `found` predicate ignores the `required` name being
iterated: it tests whether ANY admitted sheet name contains "pl" or "bs". -/
def computeMissingRequired (sheets : List ExtractedSheet) : List Str :=
  ["PL - RAW".data, "BS - RAW".data].foldl
    (fun acc _required =>
      let found := sheets.any fun s =>
        strIncludes "pl".data (strLower s.name) || strIncludes "bs".data (strLower s.name)
      if !found then acc ++ [_required] else acc)
    []

/-- Extract core financial sheets from a workbook
(`extractCoreSheets`, excel.ts lines 108-165). -/
def extractCoreSheets (wb : Workbook) (maxTokens : Nat) : ExtractionResult :=
  let st := extractLoop wb maxTokens
  { sheets := st.1
    totalTokens := st.2
    missingRequiredSheets := computeMissingRequired st.1
    allSheetNames := sheetNames wb }

/-! ## Cell classifier and row predicates (`src/lib/excel.ts` formatter part,
`src/components/report-section.tsx`) -/

/-- Result of `formatFinancialNumber` (`FormattedNumber`). -/
structure FormattedNumber where
  text : Str
  isNegative : Bool
  isPositive : Bool
  isZero : Bool
  isNA : Bool
deriving DecidableEq, Repr

/-- Digits of a numeral to a natural number. -/
def digitsToNat (l : Str) : Nat := l.foldl (fun n c => n * 10 + (c.toNat - '0'.toNat)) 0

/-- JavaScript `parseFloat`, modelled for strings over the characters
`0-9`, `.`, `-` (exactly the alphabet of `numericStr` in the source): an
optional sign, then digits with at most one decimal point; parsing stops at
the first character that cannot extend the number, and yields NaN (`none`)
when no digit was consumed.  The parsed decimal is represented exactly as a
numerator/denominator pair `(num, 10 ^ fractionDigits)`. -/
def jsParseFloat (l : Str) : Option (Int × Nat) :=
  let signed : Bool × Str :=
    match l with
    | '-' :: r => (true, r)
    | '+' :: r => (false, r)
    | _ => (false, l)
  let intPart := signed.2.takeWhile Char.isDigit
  let rest2 := signed.2.dropWhile Char.isDigit
  let fracPart :=
    match rest2 with
    | '.' :: r2 => r2.takeWhile Char.isDigit
    | _ => []
  if intPart = [] ∧ fracPart = [] then none
  else
    let num : Int :=
      (digitsToNat intPart * 10 ^ fracPart.length + digitsToNat fracPart : Nat)
    some (if signed.1 then -num else num, 10 ^ fracPart.length)

/-- The N/A test opening `formatFinancialNumber` (excel.ts lines 279-287),
for string inputs: empty, lowercasing contains "n/a" or "data not provided",
or lowercasing equals "n/m" or "nm". -/
def naCheck (value : Str) : Bool :=
  value == [] ||
  strIncludes "n/a".data (strLower value) ||
  strIncludes "data not provided".data (strLower value) ||
  strLower value == "n/m".data ||
  strLower value == "nm".data

/-- Formatter and classifier for a single cell value
(`formatFinancialNumber`, excel.ts lines 271-339). -/
def formatFinancialNumber (value : Str) : FormattedNumber :=
  if naCheck value then
    ⟨"N/A".data, false, false, false, true⟩
  else
    let strValue := jsTrim value
    if strValue == "-".data || strValue == "—".data || strValue == "–".data then
      ⟨"—".data, false, false, true, false⟩
    else
      let isNegative :=
        (strStarts "-".data strValue && strHasDigit strValue) ||
        (strStarts "(".data strValue && strEnds ")".data strValue) ||
        strIncludes "($".data strValue ||
        strIncludes "-(".data strValue
      let isPositive := strStarts "+".data strValue && strHasDigit strValue
      let numericStr := strValue.filter (fun c => c.isDigit || c = '.' || c = '-')
      let isZero :=
        match jsParseFloat numericStr with
        | none => false
        | some nd => 100 * nd.1.natAbs < nd.2
      if isZero && !strIncludes "%".data strValue then
        ⟨"—".data, false, false, true, false⟩
      else
        let text :=
          if isNegative && strStarts "-".data strValue && !strStarts "(".data strValue then
            if strIncludes "$".data strValue then
              replaceFirst "-$".data "($".data strValue ++ ")".data
            else if strIncludes "%".data strValue then
              "(".data ++ replaceFirst "-".data [] strValue ++ ")".data
            else
              "(".data ++ replaceFirst "-".data [] strValue ++ ")".data
          else strValue
        ⟨text, isNegative, isPositive, isZero, false⟩

/-- Total-row predicate of the library (`isRowTotal`, excel.ts lines 361-372). -/
def isRowTotal (label : Str) : Bool :=
  let lower := jsTrim (strLower label)
  strStarts "total".data lower ||
  strStarts "= ".data lower ||
  strIncludes "net income".data lower ||
  strIncludes "gross profit".data lower ||
  strIncludes "ebitda".data lower ||
  strIncludes "ebit".data lower ||
  lower == "net cash".data

/-- Subtotal-row predicate (`isRowSubtotal`, excel.ts lines 377-380). -/
def isRowSubtotal (label : Str) : Bool :=
  let lower := jsTrim (strLower label)
  strStarts "subtotal".data lower || strStarts "sub-total".data lower

/-- Total-row predicate of the renderer
(`isTotalRow`, report-section.tsx lines 87-98): unlike the library's
`isRowTotal`, it compares "ebitda"/"ebit" by exact equality. -/
def isTotalRow (label : Str) : Bool :=
  let lower := jsTrim (strLower label)
  strStarts "total".data lower ||
  strStarts "= ".data lower ||
  strIncludes "net income".data lower ||
  strIncludes "gross profit".data lower ||
  lower == "ebitda".data ||
  lower == "ebit".data ||
  lower == "net cash".data

/-! ## Specification-side predicates (following the claims' words, for
comparison with the source-side definitions) -/

/-- Modelled from the claim C6 wording: after trimming, the value is empty,
or case-insensitively equals "n/a", "n/m" or "nm", or contains the phrase
"data not provided". -/
def specIsNA (value : Str) : Bool :=
  let t := jsTrim value
  t == [] ||
  strLower t == "n/a".data ||
  strLower t == "n/m".data ||
  strLower t == "nm".data ||
  strIncludes "data not provided".data (strLower t)

/-- Modelled from the claim C7 wording: the trimmed, lower-cased label starts
with "total" or "= ", contains one of the terminal line names as a substring,
or equals "net cash" exactly. -/
def specIsTotalRowLabel (label : Str) : Bool :=
  let l := jsTrim (strLower label)
  strStarts "total".data l ||
  strStarts "= ".data l ||
  (["net income".data, "gross profit".data, "ebitda".data, "ebit".data].any
    fun k => strIncludes k l) ||
  l == "net cash".data

/-- Modelled from the claim C8 wording: the trimmed, lower-cased label starts
with "subtotal" or "sub-total". -/
def specIsSubtotalRowLabel (label : Str) : Bool :=
  let l := jsTrim (strLower label)
  strStarts "subtotal".data l || strStarts "sub-total".data l

/-! ## Concrete workbooks used by the extractor claims -/

/-- A workbook whose only tab is the income statement under its known alias. -/
def c1Workbook : Workbook :=
  [("Income Statement".data, "Revenue,100\nCOGS,40\nNet Income,60\n".data)]

/-- A two-tab workbook: the priority-1 sheet costs 10 tokens, the priority-2
sheet costs 2 tokens. -/
def c2Workbook : Workbook :=
  [("PL - RAW".data, "0123456789012345678901234567890123456789".data),
   ("Dynamic PL".data, "01234567".data)]

/-- Does an admitted sheet's lower-cased name contain "pl" or "bs" — the
predicate the source's required-sheet check actually evaluates. -/
def sheetMentionsPLorBS (s : ExtractedSheet) : Bool :=
  strIncludes "pl".data (strLower s.name) || strIncludes "bs".data (strLower s.name)

/-- The required-sheet check depends only on whether some admitted sheet
mentions "pl" or "bs": it reports either no missing sheets or both canonical
names, never exactly one. -/
theorem computeMissingRequired_eq (sheets : List ExtractedSheet) :
    computeMissingRequired sheets =
      if sheets.any sheetMentionsPLorBS then []
      else ["PL - RAW".data, "BS - RAW".data] := by
  unfold computeMissingRequired sheetMentionsPLorBS
  cases h : sheets.any fun s =>
      strIncludes "pl".data (strLower s.name) || strIncludes "bs".data (strLower s.name) <;>
    simp [h]

/-- Budget invariant of the greedy admission loop: the running token total
never exceeds the budget. -/
theorem foldl_extractStep_le (wb : Workbook) (maxTokens : Nat) :
    ∀ (targets : List Str) (st : List ExtractedSheet × Nat),
      st.2 ≤ maxTokens → (targets.foldl (extractStep wb maxTokens) st).2 ≤ maxTokens := by
  intro targets
  induction targets with
  | nil => intro st h; exact h
  | cons t ts ih =>
    intro st h
    simp only [List.foldl_cons]
    apply ih
    unfold extractStep
    cases findSheetByName wb t with
    | none => exact h
    | some actualName =>
      simp only
      split
      · exact h
      · next h2 => simp only [] ; omega

/-- C1 counterexample: a workbook containing the income statement only under
the alias "Income Statement" is admitted under its actual tab name (not the
canonical "PL - RAW"), and `missingRequiredSheets` is NOT exactly the
balance-sheet canonical name — it contains both canonical names. -/
theorem c1_counterexample :
    (extractCoreSheets c1Workbook 150000).sheets.map ExtractedSheet.name =
      ["Income Statement".data] ∧
    (extractCoreSheets c1Workbook 150000).missingRequiredSheets ≠ ["BS - RAW".data] ∧
    ¬ ∃ s ∈ (extractCoreSheets c1Workbook 150000).sheets, s.name = "PL - RAW".data := by
  decide

/-- C1 amended: `missingRequiredSheets` is empty when some admitted sheet's
lower-cased name contains "pl" or "bs", and otherwise contains BOTH canonical
names; admitted sheets carry the actual workbook tab name.  In the
income-statement-alias scenario the tab is admitted as "Income Statement" and
both canonical names are reported missing. -/
theorem c1_amended :
    (∀ (wb : Workbook) (maxTokens : Nat),
        (extractCoreSheets wb maxTokens).missingRequiredSheets =
          if (extractCoreSheets wb maxTokens).sheets.any sheetMentionsPLorBS then []
          else ["PL - RAW".data, "BS - RAW".data]) ∧
    (extractCoreSheets c1Workbook 150000).sheets.map ExtractedSheet.name =
      ["Income Statement".data] ∧
    (extractCoreSheets c1Workbook 150000).missingRequiredSheets =
      ["PL - RAW".data, "BS - RAW".data] := by
  refine ⟨fun wb maxTokens => ?_, by decide, by decide⟩
  simp only [extractCoreSheets]
  exact computeMissingRequired_eq _

/-- C2 counterexample: with budgets 2 < 11 on `c2Workbook`, the sheet set
admitted under the smaller budget ("Dynamic PL") is not a subset of the set
admitted under the larger budget ("PL - RAW" only). -/
theorem c2_counterexample :
    (extractCoreSheets c2Workbook 2).sheets.map ExtractedSheet.name = ["Dynamic PL".data] ∧
    (extractCoreSheets c2Workbook 11).sheets.map ExtractedSheet.name = ["PL - RAW".data] ∧
    "Dynamic PL".data ∈ (extractCoreSheets c2Workbook 2).sheets.map ExtractedSheet.name ∧
    "Dynamic PL".data ∉ (extractCoreSheets c2Workbook 11).sheets.map ExtractedSheet.name := by
  decide

/-- C2 amended: for every workbook and budget the resulting `totalTokens` is
at most the budget, and a sheet skipped for budget reasons does not stop later
admissions (under budget 2 the 10-token priority sheet is skipped and the
later 2-token sheet is still admitted) — but the admitted sets under two
budgets need not be nested. -/
theorem c2_amended :
    (∀ (wb : Workbook) (maxTokens : Nat),
        (extractCoreSheets wb maxTokens).totalTokens ≤ maxTokens) ∧
    (extractCoreSheets c2Workbook 2).sheets.map ExtractedSheet.name = ["Dynamic PL".data] := by
  refine ⟨fun wb maxTokens => ?_, by decide⟩
  simp only [extractCoreSheets]
  exact foldl_extractStep_le wb maxTokens CORE_SHEETS ([], 0) (Nat.zero_le _)

/-- C6 counterexample: "Plan/Actual" contains "n/a" as a substring, so the
code classifies it as N/A although the claim's condition (trimmed value
empty / equal to one of the tokens / containing "data not provided") is
false for it. -/
theorem c6_counterexample :
    (formatFinancialNumber "Plan/Actual".data).isNA = true ∧
    specIsNA "Plan/Actual".data = false := by
  decide

/-- C6 amended: a value is classified N/A exactly when, UNtrimmed, it is
empty, its lowercasing contains "n/a" or "data not provided" as a substring,
or its lowercasing equals "n/m" or "nm". -/
theorem c6_amended :
    ∀ value : Str, (formatFinancialNumber value).isNA = naCheck value := by
  intro value
  unfold formatFinancialNumber
  cases h : naCheck value
  · simp only [h, Bool.false_eq_true, if_false]
    split
    · rfl
    · split <;> rfl
  · simp [h]

/-- C7 counterexample: the library predicate and the renderer predicate
disagree on "EBITDA Margin" (substring versus exact-equality test). -/
theorem c7_counterexample :
    isRowTotal "EBITDA Margin".data = true ∧ isTotalRow "EBITDA Margin".data = false := by
  decide

/-- C7 amended: the claim's predicate characterises the library `isRowTotal`,
but the renderer's `isTotalRow` tests "ebitda"/"ebit" by exact equality, so
the two implementations disagree (for example on "EBITDA Margin"). -/
theorem c7_amended :
    (∀ label : Str, isRowTotal label = specIsTotalRowLabel label) ∧
    isRowTotal "EBITDA Margin".data = true ∧ isTotalRow "EBITDA Margin".data = false := by
  refine ⟨fun label => ?_, by decide, by decide⟩
  unfold isRowTotal specIsTotalRowLabel
  simp [Bool.or_assoc]

/-- C8 counterexample: "Subtotal Net Income" satisfies both the total-row
predicate (it contains "net income") and the subtotal-row predicate (it
starts with "subtotal"), refuting mutual exclusion. -/
theorem c8_counterexample :
    isRowTotal "Subtotal Net Income".data = true ∧
    isRowSubtotal "Subtotal Net Income".data = true := by
  decide

/-- C8 amended: subtotal detection holds exactly when the trimmed,
lower-cased label starts with "subtotal" or "sub-total", but total and
subtotal detection are not mutually exclusive: a subtotal label containing a
terminal line name (for example "Subtotal Net Income") satisfies both. -/
theorem c8_amended :
    (∀ label : Str, isRowSubtotal label = specIsSubtotalRowLabel label) ∧
    isRowTotal "Subtotal Net Income".data = true ∧
    isRowSubtotal "Subtotal Net Income".data = true :=
  ⟨fun _ => rfl, by decide, by decide⟩

/-- C9 counterexample: for the input "--0.001%" the display text
"(-0.001%)" is canonical (re-formatting leaves it unchanged), yet
re-classifying it flips `isZero` from `false` to `true`: the original string
fails numeric parsing (`--0.001` is NaN) while the reformatted text parses to
a value below the zero epsilon. -/
theorem c9_counterexample :
    (formatFinancialNumber ((formatFinancialNumber "--0.001%".data).text)).text =
      (formatFinancialNumber "--0.001%".data).text ∧
    (formatFinancialNumber "--0.001%".data).isZero = false ∧
    (formatFinancialNumber ((formatFinancialNumber "--0.001%".data).text)).isZero = true := by
  decide

/-- C9 amended: classification is idempotent on inputs that are themselves
already-canonical display texts, i.e. whenever formatting leaves the input
unchanged, re-classifying the display text returns the identical
classification. -/
theorem c9_amended :
    ∀ value : Str, (formatFinancialNumber value).text = value →
      formatFinancialNumber ((formatFinancialNumber value).text) =
        formatFinancialNumber value := by
  intro value h
  rw [h]

/-- Witness for the amended C9 at the canonical display text "($5.8K)". -/
theorem c9_amended_witness :
    (formatFinancialNumber "($5.8K)".data).text = "($5.8K)".data ∧
    formatFinancialNumber ((formatFinancialNumber "($5.8K)".data).text) =
      formatFinancialNumber "($5.8K)".data :=
  ⟨by decide, c9_amended "($5.8K)".data (by decide)⟩

/-! ## Section parser (`parseReportSections` in the generate route) -/

/-- The regex replacement `title.replace(/^\d+\.\s*/, "")`. -/
def stripLeadingNum (t : Str) : Str :=
  let ds := t.takeWhile Char.isDigit
  if ds.isEmpty then t
  else
    match t.drop ds.length with
    | '.' :: r => r.dropWhile isWsChar
    | _ => t

set_option maxRecDepth 40000

inductive RE where
  | eps
  | cls (p : Char → Bool)
  | clsStar (p : Char → Bool)
  | clsPlus (p : Char → Bool)
  | lit (w : Str)
  | litCI (w : Str)
  | seq (a b : RE)
  | alt (a b : RE)
  | opt (a : RE)
  | rep1 (a : RE)
  | eos

def clsStarRems (p : Char → Bool) : Str → List Str
  | [] => [[]]
  | c :: rest => if p c then clsStarRems p rest ++ [c :: rest] else [c :: rest]

def rep1Aux (f : Str → List Str) : Nat → Str → List Str
  | 0, _ => []
  | fuel + 1, s =>
    ((f s).filter (fun t => t.length < s.length)).flatMap
      (fun t => rep1Aux f fuel t ++ [t])

def reMatch : RE → Str → List Str
  | .eps, s => [s]
  | .cls p, s =>
    match s with
    | [] => []
    | c :: rest => if p c then [rest] else []
  | .clsStar p, s => clsStarRems p s
  | .clsPlus p, s =>
    match s with
    | [] => []
    | c :: rest => if p c then clsStarRems p rest else []
  | .lit w, s => if w.isPrefixOf s then [s.drop w.length] else []
  | .litCI w, s => if strLower (s.take w.length) == w then [s.drop w.length] else []
  | .seq a b, s => (reMatch a s).flatMap (reMatch b)
  | .alt a b, s => reMatch a s ++ reMatch b s
  | .opt a, s => reMatch a s ++ [s]
  | .rep1 a, s => rep1Aux (reMatch a) s.length s
  | .eos, s => if s.isEmpty then [s] else []

def findSplit (P : RE) : Str → Option (Str × Str × Str)
  | [] =>
    match reMatch P [] with
    | rem :: _ => some ([], [], rem)
    | [] => none
  | c :: rest =>
    match reMatch P (c :: rest) with
    | rem :: _ => some ([], (c :: rest).take ((c :: rest).length - rem.length), rem)
    | [] => (findSplit P rest).map (fun x => (c :: x.1, x.2.1, x.2.2))

def matchAllAux (P : RE) : Nat → Str → List Str × List Str
  | 0, s => ([], [s])
  | fuel + 1, s =>
    match findSplit P s with
    | none => ([], [s])
    | some (pre, m, rest) =>
      if m.isEmpty then ([], [s])
      else
        let next := matchAllAux P fuel rest
        (m :: next.1, pre :: next.2)

def jsMatchAll (P : RE) (s : Str) : List Str := (matchAllAux P s.length s).1

def joinWith (rep : Str) : List Str → Str
  | [] => []
  | [x] => x
  | x :: xs => x ++ rep ++ joinWith rep xs

def jsReplaceAllRe (P : RE) (rep : Str) (s : Str) : Str :=
  joinWith rep (matchAllAux P s.length s).2

-- ===== suffix lemmas =====

theorem clsStarRems_suffix (p : Char → Bool) :
    ∀ s r, r ∈ clsStarRems p s → r <:+ s := by
  intro s
  induction s with
  | nil => intro r hr; simp [clsStarRems] at hr; simp [hr]
  | cons c rest ih =>
    intro r hr
    by_cases hp : p c
    · simp [clsStarRems, hp] at hr
      rcases hr with hr | hr
      · exact (ih r hr).trans (List.suffix_cons c rest)
      · simp [hr]
    · simp [clsStarRems, hp] at hr
      simp [hr]

theorem rep1Aux_suffix (f : Str → List Str)
    (hf : ∀ s r, r ∈ f s → r <:+ s) :
    ∀ fuel s r, r ∈ rep1Aux f fuel s → r <:+ s := by
  intro fuel
  induction fuel with
  | zero => intro s r hr; simp [rep1Aux] at hr
  | succ n ih =>
    intro s r hr
    simp [rep1Aux] at hr
    rcases hr with ⟨t, ⟨ht, _⟩, hmem⟩
    rcases hmem with hmem | hmem
    · exact (ih t r hmem).trans (hf s t ht)
    · exact hmem ▸ hf s t ht

theorem reMatch_suffix (P : RE) : ∀ s r, r ∈ reMatch P s → r <:+ s := by
  induction P with
  | eps => intro s r hr; simp [reMatch] at hr; simp [hr]
  | cls p =>
    intro s r hr
    match s with
    | [] => simp [reMatch] at hr
    | c :: rest =>
      simp [reMatch] at hr
      rcases hr with ⟨_, hr⟩
      exact hr ▸ List.suffix_cons c rest
  | clsStar p => intro s r hr; exact clsStarRems_suffix p s r hr
  | clsPlus p =>
    intro s r hr
    match s with
    | [] => simp [reMatch] at hr
    | c :: rest =>
      simp [reMatch] at hr
      rcases hr with ⟨_, hr⟩
      exact (clsStarRems_suffix p rest r hr).trans (List.suffix_cons c rest)
  | lit w =>
    intro s r hr
    simp [reMatch] at hr
    rcases hr with ⟨_, hr⟩
    exact hr ▸ List.drop_suffix w.length s
  | litCI w =>
    intro s r hr
    simp [reMatch] at hr
    rcases hr with ⟨_, hr⟩
    exact hr ▸ List.drop_suffix w.length s
  | seq a b iha ihb =>
    intro s r hr
    simp [reMatch] at hr
    rcases hr with ⟨t, ht, hr⟩
    exact (ihb t r hr).trans (iha s t ht)
  | alt a b iha ihb =>
    intro s r hr
    simp [reMatch] at hr
    rcases hr with hr | hr
    · exact iha s r hr
    · exact ihb s r hr
  | opt a iha =>
    intro s r hr
    simp [reMatch] at hr
    rcases hr with hr | hr
    · exact iha s r hr
    · simp [hr]
  | rep1 a iha =>
    intro s r hr
    exact rep1Aux_suffix (reMatch a) iha s.length s r hr
  | eos =>
    intro s r hr
    simp [reMatch] at hr
    rcases hr with ⟨_, hr⟩
    simp [hr]

-- ===== flatMap nonempty existence =====

theorem flatMap_ne_nil {α β : Type} {l : List α} {f : α → List β}
    (h : l.flatMap f ≠ []) : ∃ x ∈ l, f x ≠ [] := by
  by_contra hc
  push_neg at hc
  exact h (List.flatMap_eq_nil_iff.mpr hc)

theorem seq_nil_left {a b : RE} {s : Str} (h : reMatch a s = []) :
    reMatch (.seq a b) s = [] := by
  simp [reMatch, h]

theorem litCI_success {w : Str} {s : Str} (h : reMatch (.litCI w) s ≠ []) :
    strLower (s.take w.length) = w := by
  simp only [reMatch] at h
  by_cases hc : (strLower (s.take w.length) == w) = true
  · exact eq_of_beq hc
  · rw [if_neg hc] at h; exact absurd rfl h

-- ===== patterns =====

def isDotChar (c : Char) : Bool := !(c = '\n' || c = '\r' || c = '\u2028' || c = '\u2029')
def colonWs (c : Char) : Bool := c = ':' || isWsChar c
def bulletTk (c : Char) : Bool := c = '-' || c = '*' || c = '•'
def bulletQ (c : Char) : Bool := bulletTk c || c = '?'
def notParenChar (c : Char) : Bool := !(c = ')')
def hashChar (c : Char) : Bool := c = '#'

def hash14 : RE :=
  .seq (.cls hashChar)
    (.opt (.seq (.cls hashChar) (.opt (.seq (.cls hashChar) (.opt (.cls hashChar))))))

def parenGroupPlus : RE :=
  .seq (.cls (fun c => c = '(')) (.seq (.clsPlus notParenChar) (.cls (fun c => c = ')')))

def parenGroupStar : RE :=
  .seq (.cls (fun c => c = '(')) (.seq (.clsStar notParenChar) (.cls (fun c => c = ')')))

def takeawaysHead : RE :=
  .seq (.opt (.seq hash14 (.clsStar isWsChar)))
  (.seq (.opt (.lit "**".data))
  (.seq (.litCI "key".data)
  (.seq (.clsPlus isWsChar)
  (.seq (.litCI "takeaways".data)
  (.seq (.opt (.lit "**".data))
  (.seq (.clsStar colonWs)
  (.seq (.opt parenGroupPlus)
  (.seq (.clsStar isWsChar)
  (.lit "\n".data)))))))))

def tkItem : RE :=
  .seq (.cls bulletTk)
    (.seq (.clsStar isWsChar) (.seq (.clsPlus isDotChar) (.alt (.lit "\n".data) .eos)))

def takeawaysRE : RE := .seq takeawaysHead (.rep1 tkItem)

def tkItemScanRE : RE :=
  .seq (.cls bulletTk) (.seq (.clsStar isWsChar) (.clsPlus isDotChar))

def questionsHead : RE :=
  .seq (.opt (.seq hash14 (.clsStar isWsChar)))
  (.seq (.opt (.lit "**".data))
  (.seq (.litCI "question".data)
  (.seq (.opt (.litCI "s".data))
  (.seq (.clsPlus isWsChar)
  (.seq (.opt (.seq (.litCI "for".data) (.clsPlus isWsChar)))
  (.seq (.litCI "management".data)
  (.seq (.opt (.lit "**".data))
  (.seq (.clsStar colonWs)
  (.seq (.opt parenGroupPlus)
  (.seq (.clsStar isWsChar)
  (.lit "\n".data)))))))))))

def qItem : RE :=
  .seq (.cls bulletQ)
    (.seq (.clsStar isWsChar) (.seq (.clsPlus isDotChar) (.alt (.lit "\n".data) .eos)))

def questionsRE : RE := .seq questionsHead (.rep1 qItem)

def qItemScanRE : RE :=
  .seq (.cls bulletQ) (.seq (.clsStar isWsChar) (.clsPlus isDotChar))

def insightsPre : RE :=
  .seq (.opt (.seq hash14 (.clsStar isWsChar)))
  (.seq (.opt (.lit "**".data))
  (.seq (.opt (.seq (.clsPlus Char.isDigit)
      (.seq (.opt (.lit ".".data)) (.seq (.clsStar Char.isDigit) (.clsPlus isWsChar)))))
  (.seq (.opt (.seq (.litCI "top".data) (.clsPlus isWsChar)))
  (.seq (.litCI "executive".data)
  (.seq (.clsPlus isWsChar)
  (.seq (.alt (.seq (.litCI "insight".data) (.opt (.litCI "s".data))) (.litCI "summary".data))
  (.seq (.opt (.lit "**".data))
  (.seq (.clsStar colonWs)
  (.seq (.opt parenGroupStar)
  (.seq (.clsStar isWsChar)
  (.lit "\n".data)))))))))))

def insItem : RE :=
  .seq (.alt (.seq (.clsPlus Char.isDigit) (.lit ".".data)) (.cls bulletTk))
    (.seq (.clsPlus isWsChar) (.seq (.clsPlus isDotChar) (.alt (.lit "\n".data) .eos)))

def insightsBody : RE := .rep1 insItem

def insCandsAt (s : Str) : List (Str × Str) :=
  (reMatch insightsPre s).flatMap (fun r1 => (reMatch insightsBody r1).map (fun r2 => (r1, r2)))

def findInsightsSplit : Str → Option (Str × Str × Str × Str)
  | [] =>
    match insCandsAt [] with
    | (_, r2) :: _ => some ([], [], [], r2)
    | [] => none
  | c :: rest =>
    match insCandsAt (c :: rest) with
    | (r1, r2) :: _ =>
      some ([], (c :: rest).take ((c :: rest).length - r2.length),
            r1.take (r1.length - r2.length), r2)
    | [] => (findInsightsSplit rest).map (fun x => (c :: x.1, x.2.1, x.2.2.1, x.2.2.2))

-- ===== a match forces the key literal to occur on some suffix =====

theorem reMatch_seq (a b : RE) (s : Str) :
    reMatch (.seq a b) s = (reMatch a s).flatMap (reMatch b) := rfl

theorem seq_peel {a b : RE} {s : Str} (h : reMatch (.seq a b) s ≠ []) :
    ∃ r ∈ reMatch a s, reMatch b r ≠ [] := by
  rw [reMatch_seq] at h
  exact flatMap_ne_nil h

def noLowerB (x : Char) (s : Str) : Bool := s.all (fun c => !(Char.toLower c == x))

theorem noLowerB_suffix {x : Char} {s r : Str} (h : noLowerB x s = true) (hr : r <:+ s) :
    noLowerB x r = true := by
  simp [noLowerB, List.all_eq_true] at h ⊢
  intro c hc
  exact h c (hr.subset hc)

theorem noLowerB_no_litCI {x : Char} {w : Str} (hx : x ∈ w) :
    ∀ {r : Str}, noLowerB x r = true → reMatch (.litCI w) r = [] := by
  intro r h
  by_cases hne : reMatch (.litCI w) r = []
  · exact hne
  · exfalso
    have hs := litCI_success hne
    have hw : x ∈ strLower (List.take w.length r) := by rw [hs]; exact hx
    simp only [strLower] at hw
    rcases List.mem_map.mp hw with ⟨c, hc, hlc⟩
    simp [noLowerB, List.all_eq_true] at h
    exact absurd hlc (h c (List.take_subset _ _ hc))

theorem tk_requires_k {s : Str} (h : noLowerB 'k' s = true) :
    reMatch takeawaysRE s = [] := by
  by_contra hne
  have h1 : reMatch takeawaysHead s ≠ [] := fun he => hne (seq_nil_left he)
  rcases seq_peel h1 with ⟨r1, hr1, h2⟩
  rcases seq_peel h2 with ⟨r2, hr2, h3⟩
  have hkey : reMatch (.litCI "key".data) r2 ≠ [] := fun he => h3 (seq_nil_left he)
  have hsuf2 : r2 <:+ s :=
    (reMatch_suffix _ r1 r2 hr2).trans (reMatch_suffix _ s r1 hr1)
  exact hkey (noLowerB_no_litCI (by decide) (noLowerB_suffix h hsuf2))

theorem q_requires_q {s : Str} (h : noLowerB 'q' s = true) :
    reMatch questionsRE s = [] := by
  by_contra hne
  have h1 : reMatch questionsHead s ≠ [] := fun he => hne (seq_nil_left he)
  rcases seq_peel h1 with ⟨r1, hr1, h2⟩
  rcases seq_peel h2 with ⟨r2, hr2, h3⟩
  have hkey : reMatch (.litCI "question".data) r2 ≠ [] := fun he => h3 (seq_nil_left he)
  have hsuf2 : r2 <:+ s :=
    (reMatch_suffix _ r1 r2 hr2).trans (reMatch_suffix _ s r1 hr1)
  exact hkey (noLowerB_no_litCI (by decide) (noLowerB_suffix h hsuf2))

theorem ins_requires_v {s : Str} (h : noLowerB 'v' s = true) :
    reMatch insightsPre s = [] := by
  by_contra hne
  rcases seq_peel hne with ⟨r1, hr1, h2⟩
  rcases seq_peel h2 with ⟨r2, hr2, h3⟩
  rcases seq_peel h3 with ⟨r3, hr3, h4⟩
  rcases seq_peel h4 with ⟨r4, hr4, h5⟩
  have hkey : reMatch (.litCI "executive".data) r4 ≠ [] := fun he => h5 (seq_nil_left he)
  have hsuf : r4 <:+ s :=
    ((((reMatch_suffix _ r3 r4 hr4).trans (reMatch_suffix _ r2 r3 hr3)).trans
      (reMatch_suffix _ r1 r2 hr2)).trans (reMatch_suffix _ s r1 hr1))
  exact hkey (noLowerB_no_litCI (by decide) (noLowerB_suffix h hsuf))

-- ===== global no-match implies findSplit none =====

theorem findSplit_none_of_noMatch {P : RE}
    (hP : ∀ r : Str, r <:+ s₀ → reMatch P r = []) :
    ∀ s : Str, s <:+ s₀ → findSplit P s = none := by
  intro s
  induction s with
  | nil => intro hs; simp [findSplit, hP [] hs]
  | cons c rest ih =>
    intro hs
    have h1 : reMatch P (c :: rest) = [] := hP _ hs
    have h2 : findSplit P rest = none := ih ((List.suffix_cons c rest).trans hs)
    simp [findSplit, h1, h2]

theorem findSplit_tk_none {s : Str} (h : noLowerB 'k' s = true) :
    findSplit takeawaysRE s = none := by
  exact findSplit_none_of_noMatch
    (fun r hr => tk_requires_k (noLowerB_suffix h hr)) s List.suffix_rfl

theorem findSplit_q_none {s : Str} (h : noLowerB 'q' s = true) :
    findSplit questionsRE s = none := by
  exact findSplit_none_of_noMatch
    (fun r hr => q_requires_q (noLowerB_suffix h hr)) s List.suffix_rfl

theorem insCandsAt_nil_of_noV {s : Str} (h : noLowerB 'v' s = true) :
    insCandsAt s = [] := by
  simp [insCandsAt, ins_requires_v h]

theorem findInsightsSplit_none {s : Str} (h : noLowerB 'v' s = true) :
    findInsightsSplit s = none := by
  induction s with
  | nil => simp [findInsightsSplit, insCandsAt_nil_of_noV h]
  | cons c rest ih =>
    have hr : noLowerB 'v' rest = true :=
      noLowerB_suffix h (List.suffix_cons c rest)
    have h1 : insCandsAt (c :: rest) = [] := insCandsAt_nil_of_noV h
    simp [findInsightsSplit, h1, ih hr]

-- ===== region walking =====

theorem findSplit_skip {P : RE} {c : Char} {rest : Str}
    (h : reMatch P (c :: rest) = []) :
    findSplit P (c :: rest) = (findSplit P rest).map (fun x => (c :: x.1, x.2.1, x.2.2)) := by
  simp [findSplit, h]

theorem findSplit_region {P : RE} {g : Char → Bool}
    (hg : ∀ c x, g c = true → reMatch P (c :: x) = []) :
    ∀ (pre r : Str), (∀ c ∈ pre, g c = true) →
      findSplit P (pre ++ r) = (findSplit P r).map (fun x => (pre ++ x.1, x.2.1, x.2.2)) := by
  intro pre
  induction pre with
  | nil =>
    intro r _
    cases hfs : findSplit P r with
    | none => simp [hfs]
    | some x => simp [hfs]
  | cons c pre' ih =>
    intro r hpre
    have hc : g c = true := hpre c (List.mem_cons_self c pre')
    have h1 : reMatch P (c :: (pre' ++ r)) = [] := hg c (pre' ++ r) hc
    rw [List.cons_append, findSplit_skip h1,
      ih r (fun d hd => hpre d (List.mem_cons_of_mem c hd))]
    cases findSplit P r with
    | none => simp
    | some x => simp

theorem litCI_head_ne {c w0 : Char} {ws' : Str} (hne : Char.toLower c ≠ w0) (x : Str) :
    reMatch (.litCI (w0 :: ws')) (c :: x) = [] := by
  simp only [reMatch]
  rw [if_neg]
  intro hbeq
  have he := eq_of_beq hbeq
  rw [List.length_cons, List.take_succ_cons] at he
  simp only [strLower, List.map_cons] at he
  exact hne (List.head_eq_of_cons_eq he)

theorem cls_fail {p : Char → Bool} {c : Char} (x : Str) (h : p c = false) :
    reMatch (.cls p) (c :: x) = [] := by
  simp [reMatch, h]

theorem headStart_fail {w0 : Char} {ws' : Str} (RESTre : RE) {c : Char} (x : Str)
    (h1 : c ≠ '#') (h2 : c ≠ '*') (h3 : Char.toLower c ≠ w0) :
    reMatch (.seq (.opt (.seq hash14 (.clsStar isWsChar)))
      (.seq (.opt (.lit ('*' :: '*' :: []))) (.seq (.litCI (w0 :: ws')) RESTre))) (c :: x) = [] := by
  have hhc : hashChar c = false := by simp [hashChar, h1]
  have hh : reMatch (.seq hash14 (.clsStar isWsChar)) (c :: x) = [] := by
    apply seq_nil_left; apply seq_nil_left
    exact cls_fail x hhc
  have hst : reMatch (.lit ('*' :: '*' :: [])) (c :: x) = [] := by
    simp only [reMatch]
    rw [if_neg]
    show ¬ (('*' == c) && List.isPrefixOf ['*'] x) = true
    rw [beq_eq_false_iff_ne.mpr (Ne.symm h2), Bool.false_and]
    exact Bool.false_ne_true
  have rA : reMatch (.opt (.seq hash14 (.clsStar isWsChar))) (c :: x) = [c :: x] := by
    show reMatch (.seq hash14 (.clsStar isWsChar)) (c :: x) ++ [c :: x] = [c :: x]
    rw [hh]; rfl
  have rB : reMatch (.opt (.lit ('*' :: '*' :: []))) (c :: x) = [c :: x] := by
    show reMatch (.lit ('*' :: '*' :: [])) (c :: x) ++ [c :: x] = [c :: x]
    rw [hst]; rfl
  rw [reMatch_seq, rA]
  show reMatch (.seq (.opt (.lit ('*' :: '*' :: []))) (.seq (.litCI (w0 :: ws')) RESTre))
      (c :: x) ++ [] = []
  rw [List.append_nil, reMatch_seq, rB]
  show reMatch (.seq (.litCI (w0 :: ws')) RESTre) (c :: x) ++ [] = []
  rw [List.append_nil]
  exact seq_nil_left (litCI_head_ne h3 x)

theorem hgTk {c : Char} (x : Str) (h1 : c ≠ '#') (h2 : c ≠ '*')
    (h3 : Char.toLower c ≠ 'k') :
    reMatch takeawaysRE (c :: x) = [] := by
  apply seq_nil_left
  exact headStart_fail _ x h1 h2 h3

theorem hgQ {c : Char} (x : Str) (h1 : c ≠ '#') (h2 : c ≠ '*')
    (h3 : Char.toLower c ≠ 'q') :
    reMatch questionsRE (c :: x) = [] := by
  apply seq_nil_left
  exact headStart_fail _ x h1 h2 h3

theorem scanTk_fail {c : Char} (x : Str) (h : bulletTk c = false) :
    reMatch tkItemScanRE (c :: x) = [] := by
  apply seq_nil_left; exact cls_fail x h

theorem scanQ_fail {c : Char} (x : Str) (h : bulletQ c = false) :
    reMatch qItemScanRE (c :: x) = [] := by
  apply seq_nil_left; exact cls_fail x h

theorem tkItem_fail {c : Char} (x : Str) (h : bulletTk c = false) :
    reMatch tkItem (c :: x) = [] := by
  apply seq_nil_left; exact cls_fail x h

theorem qItem_fail {c : Char} (x : Str) (h : bulletQ c = false) :
    reMatch qItem (c :: x) = [] := by
  apply seq_nil_left; exact cls_fail x h

theorem tkItem_nil : reMatch tkItem [] = [] := rfl

theorem qItem_nil : reMatch qItem [] = [] := rfl

def isExecutiveInsightsHeaderTxt (text : Str) : Bool :=
  strIncludes "executive insight".data (strLower text) ||
  strIncludes "top insight".data (strLower text) ||
  strIncludes "numeric callout".data (strLower text) ||
  strIncludes "with callout".data (strLower text)

def splitOnNL : Str → List Str
  | [] => [[]]
  | c :: rest =>
    if c = '\n' then [] :: splitOnNL rest
    else
      match splitOnNL rest with
      | h :: t => (c :: h) :: t
      | [] => [[c]]

def stripBulletOne (bullets : Char → Bool) (l : Str) : Str :=
  match l with
  | c :: rest => if bullets c then rest.dropWhile isWsChar else l
  | [] => []

def stripBulletsPlus (bullets : Char → Bool) (l : Str) : Str :=
  match l with
  | c :: _ => if bullets c then (l.dropWhile bullets).dropWhile isWsChar else l
  | [] => []

def extractExecutiveInsights (content : Str) : List Str × Str :=
  match findInsightsSplit content with
  | none => ([], content)
  | some (_, whole, captured, _) =>
    let insights := (splitOnNL captured).filterMap (fun line =>
      let cleaned := jsTrim (stripBulletOne bulletTk (stripLeadingNum line))
      if cleaned.length > 0 && !isExecutiveInsightsHeaderTxt cleaned then some cleaned
      else none)
    (insights, replaceFirst whole "\n".data content)

structure SpecialSections where
  content : Str
  keyTakeaways : List Str
  questions : List Str
  executiveInsights : List Str
deriving DecidableEq, Repr

def parseSpecialSections (markdown : Str) : SpecialSections :=
  let ins := extractExecutiveInsights markdown
  let content1 := ins.2
  let tkMatches := jsMatchAll takeawaysRE content1
  let keyTakeaways := tkMatches.flatMap (fun m =>
    (jsMatchAll tkItemScanRE m).filterMap (fun item =>
      let text := jsTrim (stripBulletOne bulletTk item)
      if text.isEmpty then none else some text))
  let content2 :=
    if tkMatches.isEmpty then content1
    else jsReplaceAllRe takeawaysRE "\n".data content1
  let qMatches := jsMatchAll questionsRE content2
  let questions := qMatches.flatMap (fun m =>
    (jsMatchAll qItemScanRE m).filterMap (fun item =>
      let text := jsTrim (stripBulletsPlus bulletQ item)
      if text.isEmpty then none else some text))
  let content3 :=
    if qMatches.isEmpty then content2
    else jsReplaceAllRe questionsRE "\n".data content2
  ⟨jsTrim content3, keyTakeaways, questions, ins.1⟩

-- ===== item-level component lemmas =====

theorem dotRun_alt (R : Str) :
    ∀ (t : Str), t.all isDotChar = true →
      (clsStarRems isDotChar (t ++ '\n' :: R)).flatMap
        (reMatch (.alt (.lit ('\n' :: [])) .eos)) = [R] := by
  intro t
  induction t with
  | nil =>
    intro _
    have hd : isDotChar '\n' = false := by decide
    simp [clsStarRems, reMatch, List.isPrefixOf, hd]
  | cons c t' ih =>
    intro hall
    simp only [List.all_cons, Bool.and_eq_true] at hall
    have hdc : isDotChar c = true := hall.1
    have hcn : '\n' ≠ c := by
      intro he
      rw [← he] at hdc
      exact absurd hdc (by decide)
    rw [List.cons_append]
    rw [show clsStarRems isDotChar (c :: (t' ++ '\n' :: R)) =
      clsStarRems isDotChar (t' ++ '\n' :: R) ++ [c :: (t' ++ '\n' :: R)] from by
        simp [clsStarRems, hdc]]
    rw [List.flatMap_append, ih hall.2]
    simp [reMatch, List.isPrefixOf, hcn]

theorem dotRun_rems (R : Str) :
    ∀ (t : Str), t.all isDotChar = true →
      ∃ l, clsStarRems isDotChar (t ++ '\n' :: R) = ('\n' :: R) :: l := by
  intro t
  induction t with
  | nil =>
    intro _
    refine ⟨[], ?_⟩
    have hd : isDotChar '\n' = false := by decide
    simp [clsStarRems, hd]
  | cons c t' ih =>
    intro hall
    simp only [List.all_cons, Bool.and_eq_true] at hall
    rcases ih hall.2 with ⟨l, hl⟩
    refine ⟨l ++ [c :: (t' ++ '\n' :: R)], ?_⟩
    rw [List.cons_append]
    rw [show clsStarRems isDotChar (c :: (t' ++ '\n' :: R)) =
      clsStarRems isDotChar (t' ++ '\n' :: R) ++ [c :: (t' ++ '\n' :: R)] from by
        simp [clsStarRems, hall.1]]
    rw [hl]
    rfl

theorem item_match (b : Char → Bool) (hb : b '-' = true) (t R : Str)
    (ht : t.all isDotChar = true) (hh : isWsChar (t.headD 'x') = false) (hne : t ≠ []) :
    reMatch (.seq (.cls b) (.seq (.clsStar isWsChar)
      (.seq (.clsPlus isDotChar) (.alt (.lit ('\n' :: [])) .eos))))
      ('-' :: ' ' :: (t ++ '\n' :: R)) = [R, R] := by
  obtain ⟨c, t', rfl⟩ : ∃ c t', t = c :: t' := by
    cases t with
    | nil => exact absurd rfl hne
    | cons a as => exact ⟨a, as, rfl⟩
  simp only [List.headD_cons] at hh
  simp only [List.all_cons, Bool.and_eq_true] at ht
  have e1 : reMatch (.cls b) ('-' :: ' ' :: (c :: t' ++ '\n' :: R)) =
      [' ' :: (c :: t' ++ '\n' :: R)] := by
    simp [reMatch, hb]
  have e2 : clsStarRems isWsChar (' ' :: (c :: t' ++ '\n' :: R)) =
      [c :: t' ++ '\n' :: R, ' ' :: (c :: t' ++ '\n' :: R)] := by
    have hsp : isWsChar ' ' = true := by decide
    simp [clsStarRems, hsp, hh]
  have e3 : reMatch (.seq (.clsPlus isDotChar) (.alt (.lit ('\n' :: [])) .eos))
      (c :: t' ++ '\n' :: R) = [R] := by
    rw [reMatch_seq]
    rw [show reMatch (.clsPlus isDotChar) (c :: t' ++ '\n' :: R) =
      clsStarRems isDotChar (t' ++ '\n' :: R) from by
        rw [List.cons_append]; simp [reMatch, ht.1]]
    exact dotRun_alt R t' ht.2
  have hds : isDotChar ' ' = true := by decide
  have e4 : reMatch (.seq (.clsPlus isDotChar) (.alt (.lit ('\n' :: [])) .eos))
      (' ' :: (c :: t' ++ '\n' :: R)) = [R] := by
    rw [reMatch_seq]
    rw [show reMatch (.clsPlus isDotChar) (' ' :: (c :: t' ++ '\n' :: R)) =
      clsStarRems isDotChar ((c :: t') ++ '\n' :: R) from by
        simp [reMatch, hds]]
    exact dotRun_alt R (c :: t') (by simp [ht.1, ht.2])
  rw [reMatch_seq, e1]
  simp only [List.flatMap_cons, List.flatMap_nil, List.append_nil]
  rw [reMatch_seq]
  show (clsStarRems isWsChar (' ' :: (c :: t' ++ '\n' :: R))).flatMap _ = _
  rw [e2]
  simp only [List.flatMap_cons, List.flatMap_nil, List.append_nil]
  rw [e3, e4]
  rfl

theorem scanItem_match (b : Char → Bool) (hb : b '-' = true) (t R : Str)
    (ht : t.all isDotChar = true) (hh : isWsChar (t.headD 'x') = false) (hne : t ≠ []) :
    ∃ l, reMatch (.seq (.cls b) (.seq (.clsStar isWsChar) (.clsPlus isDotChar)))
      ('-' :: ' ' :: (t ++ '\n' :: R)) = ('\n' :: R) :: l := by
  obtain ⟨c, t', rfl⟩ : ∃ c t', t = c :: t' := by
    cases t with
    | nil => exact absurd rfl hne
    | cons a as => exact ⟨a, as, rfl⟩
  simp only [List.headD_cons] at hh
  simp only [List.all_cons, Bool.and_eq_true] at ht
  have e1 : reMatch (.cls b) ('-' :: ' ' :: (c :: t' ++ '\n' :: R)) =
      [' ' :: (c :: t' ++ '\n' :: R)] := by
    simp [reMatch, hb]
  have e2 : clsStarRems isWsChar (' ' :: (c :: t' ++ '\n' :: R)) =
      [c :: t' ++ '\n' :: R, ' ' :: (c :: t' ++ '\n' :: R)] := by
    have hsp : isWsChar ' ' = true := by decide
    simp [clsStarRems, hsp, hh]
  rcases dotRun_rems R t' ht.2 with ⟨l1, hl1⟩
  have e3 : reMatch (.clsPlus isDotChar) (c :: t' ++ '\n' :: R) =
      ('\n' :: R) :: l1 := by
    rw [List.cons_append]
    simp only [reMatch, ht.1, if_pos]
    exact hl1
  have e5 : reMatch (.seq (.clsStar isWsChar) (.clsPlus isDotChar))
      (' ' :: (c :: t' ++ '\n' :: R)) =
      (('\n' :: R) :: l1) ++ reMatch (.clsPlus isDotChar) (' ' :: (c :: t' ++ '\n' :: R)) := by
    rw [reMatch_seq]
    rw [show reMatch (.clsStar isWsChar) (' ' :: (c :: t' ++ '\n' :: R)) =
      [c :: t' ++ '\n' :: R, ' ' :: (c :: t' ++ '\n' :: R)] from e2]
    simp only [List.flatMap_cons, List.flatMap_nil, List.append_nil]
    rw [e3]
  rw [reMatch_seq, e1]
  simp only [List.flatMap_cons, List.flatMap_nil, List.append_nil]
  exact ⟨l1 ++ reMatch (.clsPlus isDotChar) (' ' :: (c :: t' ++ '\n' :: R)),
    by rw [e5]; rfl⟩

-- ===== rep1 lemmas =====

theorem rep1Aux_nil_f {f : Str → List Str} {s : Str} (h : f s = []) :
    ∀ fuel, rep1Aux f fuel s = [] := by
  intro fuel
  cases fuel with
  | zero => rfl
  | succ n => simp [rep1Aux, h]

theorem rep1Aux_step {f : Str → List Str} {s R : Str} (fuel : Nat)
    (h : f s = [R, R]) (hlt : R.length < s.length) :
    rep1Aux f (fuel + 1) s =
      (rep1Aux f fuel R ++ [R]) ++ (rep1Aux f fuel R ++ [R]) := by
  simp [rep1Aux, h, hlt]

-- ===== findSplit / matchAll step lemmas =====

theorem findSplit_at_match {P : RE} {c : Char} {rest rem : Str} {l : List Str}
    (h : reMatch P (c :: rest) = rem :: l) :
    findSplit P (c :: rest) =
      some ([], (c :: rest).take ((c :: rest).length - rem.length), rem) := by
  simp [findSplit, h]

theorem matchAllAux_none {P : RE} {s : Str} (h : findSplit P s = none) :
    ∀ fuel, matchAllAux P fuel s = ([], [s]) := by
  intro fuel
  cases fuel with
  | zero => rfl
  | succ n => simp [matchAllAux, h]

theorem matchAllAux_step {P : RE} {s pre m rest : Str} (fuel : Nat)
    (h : findSplit P s = some (pre, m, rest)) (hm : m ≠ []) :
    matchAllAux P (fuel + 1) s =
      (m :: (matchAllAux P fuel rest).1, pre :: (matchAllAux P fuel rest).2) := by
  simp [matchAllAux, h, hm]

-- ===== trim / strip lemmas =====

theorem dropWhile_ws_headD {t : Str} (hh : isWsChar (t.headD 'x') = false) :
    t.dropWhile isWsChar = t := by
  cases t with
  | nil => rfl
  | cons a as =>
    simp only [List.headD_cons] at hh
    simp [List.dropWhile_cons, hh]

theorem jsTrim_eq_self {t : Str} (hh : isWsChar (t.headD 'x') = false)
    (hl : isWsChar (t.getLastD 'x') = false) : jsTrim t = t := by
  have h1 : jsTrimLeft t = t := dropWhile_ws_headD hh
  rw [jsTrim, h1, jsTrimRight]
  rcases List.eq_nil_or_concat t with rfl | ⟨L, b, hlb⟩
  · rfl
  · rw [List.concat_eq_append] at hlb
    subst hlb
    rw [List.getLastD_concat] at hl
    rw [List.reverse_append]
    simp [List.dropWhile_cons, hl]

theorem stripBulletOne_item {b : Char → Bool} (hb : b '-' = true) {t : Str}
    (hh : isWsChar (t.headD 'x') = false) :
    stripBulletOne b ('-' :: ' ' :: t) = t := by
  simp only [stripBulletOne, hb, if_pos]
  rw [List.dropWhile_cons]
  simp only [show isWsChar ' ' = true from by decide, if_pos]
  exact dropWhile_ws_headD hh

theorem stripBulletsPlus_item {t : Str}
    (hh : isWsChar (t.headD 'x') = false) :
    stripBulletsPlus bulletQ ('-' :: ' ' :: t) = t := by
  simp only [stripBulletsPlus, show bulletQ '-' = true from by decide, if_pos]
  rw [List.dropWhile_cons]
  simp only [show bulletQ '-' = true from by decide, if_pos]
  rw [List.dropWhile_cons]
  simp only [show bulletQ ' ' = false from by decide]
  rw [if_neg (by simp)]
  rw [List.dropWhile_cons]
  simp only [show isWsChar ' ' = true from by decide, if_pos]
  exact dropWhile_ws_headD hh

-- ===== safe item alphabet =====

def safeChars : Str := "abcdfghijlmnoprsuwxyz ".data

def safeItemChar (c : Char) : Bool := safeChars.contains c

def cleanItem (t : Str) : Bool :=
  !t.isEmpty && t.all safeItemChar &&
  !(isWsChar (t.headD 'x')) && !(isWsChar (t.getLastD 'x'))

theorem safe_mem {c : Char} (h : safeItemChar c = true) : c ∈ safeChars := by
  simpa [safeItemChar, List.contains] using h

theorem safe_facts {c : Char} (h : safeItemChar c = true) :
    isDotChar c = true ∧ Char.toLower c ≠ 'k' ∧ Char.toLower c ≠ 'v' := by
  have hm : c ∈ "abcdfghijlmnoprsuwxyz ".data := safe_mem h
  fin_cases hm <;> exact (by decide)

theorem cleanItem_facts {t : Str} (h : cleanItem t = true) :
    t ≠ [] ∧ t.all isDotChar = true ∧ isWsChar (t.headD 'x') = false ∧
    isWsChar (t.getLastD 'x') = false ∧ noLowerB 'k' t = true ∧ noLowerB 'v' t = true := by
  simp only [cleanItem, Bool.and_eq_true, Bool.not_eq_true'] at h
  obtain ⟨⟨⟨hne, hall⟩, hhd⟩, hlast⟩ := h
  rw [List.all_eq_true] at hall
  refine ⟨?_, ?_, hhd, hlast, ?_, ?_⟩
  · intro he; rw [he] at hne; exact absurd hne (by decide)
  · rw [List.all_eq_true]; intro c hc; exact (safe_facts (hall c hc)).1
  · rw [noLowerB, List.all_eq_true]
    intro c hc
    simp only [Bool.not_eq_true']
    exact beq_eq_false_iff_ne.mpr (safe_facts (hall c hc)).2.1
  · rw [noLowerB, List.all_eq_true]
    intro c hc
    simp only [Bool.not_eq_true']
    exact beq_eq_false_iff_ne.mpr (safe_facts (hall c hc)).2.2

-- ===== C5 scenario =====

def bltLine (t rest : Str) : Str := '-' :: ' ' :: (t ++ '\n' :: rest)

def c5n1 : Str := "Main copy.\n".data
def c5tkHead : Str := "### Key Takeaways\n".data
def c5qHead : Str := "### Questions for Management\n".data
def c5n2 : Str := "Follow up.\n".data
def c5n3 : Str := "Final words.".data

def c5Doc (t1 t2 t3 q1 q2 : Str) : Str :=
  "Main copy.\n### Key Takeaways\n- ".data ++ t1 ++ "\n- ".data ++ t2 ++ "\n- ".data ++ t3 ++
  "\nFollow up.\n### Questions for Management\n- ".data ++ q1 ++ "\n- ".data ++ q2 ++
  "\nFinal words.".data

theorem c5Doc_structured (t1 t2 t3 q1 q2 : Str) :
    c5Doc t1 t2 t3 q1 q2 =
      c5n1 ++ (c5tkHead ++ bltLine t1 (bltLine t2 (bltLine t3
        (c5n2 ++ (c5qHead ++ bltLine q1 (bltLine q2 c5n3)))))) := by
  simp only [c5Doc, List.append_assoc]
  rfl

theorem noLowerB_append {x : Char} {a b : Str} :
    noLowerB x (a ++ b) = (noLowerB x a && noLowerB x b) := by
  simp [noLowerB, List.all_append]

theorem noLowerB_cons {x c : Char} {s : Str} :
    noLowerB x (c :: s) = (!(Char.toLower c == x) && noLowerB x s) := by
  simp [noLowerB]

theorem noLowerB_bltLine {x : Char} {t r : Str}
    (hd : (!(Char.toLower '-' == x)) = true) (hs : (!(Char.toLower ' ' == x)) = true)
    (hn : (!(Char.toLower '\n' == x)) = true)
    (h1 : noLowerB x t = true) (h2 : noLowerB x r = true) :
    noLowerB x (bltLine t r) = true := by
  simp at hd hs hn
  simp [bltLine, noLowerB_cons, noLowerB_append, hd, hs, hn, h1, h2]

theorem bltLine_length (t r : Str) : (bltLine t r).length = t.length + r.length + 3 := by
  simp [bltLine]
  omega

theorem rep1_one {A : RE} {t R : Str}
    (f1 : reMatch A (bltLine t R) = [R, R])
    (fR : reMatch A R = []) :
    ∃ l, reMatch (.rep1 A) (bltLine t R) = R :: l := by
  have len1 : R.length < (bltLine t R).length := by rw [bltLine_length]; omega
  have hz : ∀ k, rep1Aux (reMatch A) k R = [] := rep1Aux_nil_f fR
  obtain ⟨m, hm⟩ : ∃ m, (bltLine t R).length = m + 1 :=
    ⟨(bltLine t R).length - 1, by rw [bltLine_length]; omega⟩
  refine ⟨[R], ?_⟩
  show rep1Aux (reMatch A) (bltLine t R).length (bltLine t R) = R :: [R]
  rw [hm, rep1Aux_step m f1 len1, hz]
  rfl

theorem rep1_two {A : RE} {t1 t2 R : Str}
    (f1 : reMatch A (bltLine t1 (bltLine t2 R)) = [bltLine t2 R, bltLine t2 R])
    (f2 : reMatch A (bltLine t2 R) = [R, R])
    (fR : reMatch A R = []) :
    ∃ l, reMatch (.rep1 A) (bltLine t1 (bltLine t2 R)) = R :: l := by
  have len1 : (bltLine t2 R).length < (bltLine t1 (bltLine t2 R)).length := by
    simp only [bltLine_length]; omega
  have len2 : R.length < (bltLine t2 R).length := by rw [bltLine_length]; omega
  have hz : ∀ k, rep1Aux (reMatch A) k R = [] := rep1Aux_nil_f fR
  have l2 : ∀ k, rep1Aux (reMatch A) (k + 1) (bltLine t2 R) = [R, R] := by
    intro k
    rw [rep1Aux_step k f2 len2, hz]
    rfl
  obtain ⟨m, hm⟩ : ∃ m, (bltLine t1 (bltLine t2 R)).length = m + 2 :=
    ⟨(bltLine t1 (bltLine t2 R)).length - 2, by simp only [bltLine_length]; omega⟩
  refine ⟨[R, bltLine t2 R, R, R, bltLine t2 R], ?_⟩
  show rep1Aux (reMatch A) (bltLine t1 (bltLine t2 R)).length (bltLine t1 (bltLine t2 R)) =
    R :: [R, bltLine t2 R, R, R, bltLine t2 R]
  rw [hm, rep1Aux_step (m + 1) f1 len1, l2]
  rfl

theorem rep1_three {A : RE} {t1 t2 t3 R : Str}
    (f1 : reMatch A (bltLine t1 (bltLine t2 (bltLine t3 R))) =
      [bltLine t2 (bltLine t3 R), bltLine t2 (bltLine t3 R)])
    (f2 : reMatch A (bltLine t2 (bltLine t3 R)) = [bltLine t3 R, bltLine t3 R])
    (f3 : reMatch A (bltLine t3 R) = [R, R])
    (fR : reMatch A R = []) :
    ∃ l, reMatch (.rep1 A) (bltLine t1 (bltLine t2 (bltLine t3 R))) = R :: l := by
  have len1 : (bltLine t2 (bltLine t3 R)).length <
      (bltLine t1 (bltLine t2 (bltLine t3 R))).length := by
    simp only [bltLine_length]; omega
  have len2 : (bltLine t3 R).length < (bltLine t2 (bltLine t3 R)).length := by
    simp only [bltLine_length]; omega
  have len3 : R.length < (bltLine t3 R).length := by rw [bltLine_length]; omega
  have hz : ∀ k, rep1Aux (reMatch A) k R = [] := rep1Aux_nil_f fR
  have l3 : ∀ k, rep1Aux (reMatch A) (k + 1) (bltLine t3 R) = [R, R] := by
    intro k
    rw [rep1Aux_step k f3 len3, hz]
    rfl
  have l2 : ∀ k, rep1Aux (reMatch A) (k + 2) (bltLine t2 (bltLine t3 R)) =
      [R, R, bltLine t3 R, R, R, bltLine t3 R] := by
    intro k
    rw [rep1Aux_step (k + 1) f2 len2, l3]
    rfl
  obtain ⟨m, hm⟩ : ∃ m, (bltLine t1 (bltLine t2 (bltLine t3 R))).length = m + 3 :=
    ⟨(bltLine t1 (bltLine t2 (bltLine t3 R))).length - 3, by simp only [bltLine_length]; omega⟩
  refine ⟨[R, bltLine t3 R, R, R, bltLine t3 R, bltLine t2 (bltLine t3 R),
    R, R, bltLine t3 R, R, R, bltLine t3 R, bltLine t2 (bltLine t3 R)], ?_⟩
  show rep1Aux (reMatch A) (bltLine t1 (bltLine t2 (bltLine t3 R))).length
      (bltLine t1 (bltLine t2 (bltLine t3 R))) =
    R :: [R, bltLine t3 R, R, R, bltLine t3 R, bltLine t2 (bltLine t3 R),
      R, R, bltLine t3 R, R, R, bltLine t3 R, bltLine t2 (bltLine t3 R)]
  rw [hm, rep1Aux_step (m + 2) f1 len1, l2]
  rfl

def c5REST (q1 q2 : Str) : Str := c5n2 ++ (c5qHead ++ bltLine q1 (bltLine q2 c5n3))

set_option maxRecDepth 10000 in
theorem tkHead_match (z : Str) :
    reMatch takeawaysHead ("### Key Takeaways\n".data ++ ('-' :: ' ' :: z)) =
      ['-' :: ' ' :: z] := rfl

set_option maxRecDepth 10000 in
set_option maxHeartbeats 2000000 in
theorem qHead_match (z : Str) :
    reMatch questionsHead ("### Questions for Management\n".data ++ ('-' :: ' ' :: z)) =
      ['-' :: ' ' :: z] := rfl

theorem tk_match_full (q1 q2 : Str) {t1 t2 t3 : Str}
    (h1 : cleanItem t1 = true) (h2 : cleanItem t2 = true) (h3 : cleanItem t3 = true) :
    ∃ l, reMatch takeawaysRE
        (c5tkHead ++ bltLine t1 (bltLine t2 (bltLine t3 (c5REST q1 q2)))) =
      c5REST q1 q2 :: l := by
  obtain ⟨hne1, hdot1, hhd1, -, -, -⟩ := cleanItem_facts h1
  obtain ⟨hne2, hdot2, hhd2, -, -, -⟩ := cleanItem_facts h2
  obtain ⟨hne3, hdot3, hhd3, -, -, -⟩ := cleanItem_facts h3
  have fR : reMatch tkItem (c5REST q1 q2) = [] := tkItem_fail _ (by decide)
  have f3 : reMatch tkItem (bltLine t3 (c5REST q1 q2)) =
      [c5REST q1 q2, c5REST q1 q2] :=
    item_match bulletTk (by decide) t3 (c5REST q1 q2) hdot3 hhd3 hne3
  have f2 : reMatch tkItem (bltLine t2 (bltLine t3 (c5REST q1 q2))) =
      [bltLine t3 (c5REST q1 q2), bltLine t3 (c5REST q1 q2)] :=
    item_match bulletTk (by decide) t2 _ hdot2 hhd2 hne2
  have f1 : reMatch tkItem (bltLine t1 (bltLine t2 (bltLine t3 (c5REST q1 q2)))) =
      [bltLine t2 (bltLine t3 (c5REST q1 q2)), bltLine t2 (bltLine t3 (c5REST q1 q2))] :=
    item_match bulletTk (by decide) t1 _ hdot1 hhd1 hne1
  rcases rep1_three f1 f2 f3 fR with ⟨l, hl⟩
  have hh : reMatch takeawaysHead
      (c5tkHead ++ bltLine t1 (bltLine t2 (bltLine t3 (c5REST q1 q2)))) =
      [bltLine t1 (bltLine t2 (bltLine t3 (c5REST q1 q2)))] :=
    tkHead_match (t1 ++ '\n' :: bltLine t2 (bltLine t3 (c5REST q1 q2)))
  refine ⟨l, ?_⟩
  show (reMatch takeawaysHead _).flatMap (reMatch (.rep1 tkItem)) = _
  rw [hh]
  simp only [List.flatMap_cons, List.flatMap_nil, List.append_nil]
  exact hl

theorem q_match_full {q1 q2 : Str}
    (h1 : cleanItem q1 = true) (h2 : cleanItem q2 = true) :
    ∃ l, reMatch questionsRE (c5qHead ++ bltLine q1 (bltLine q2 c5n3)) = c5n3 :: l := by
  obtain ⟨hne1, hdot1, hhd1, -, -, -⟩ := cleanItem_facts h1
  obtain ⟨hne2, hdot2, hhd2, -, -, -⟩ := cleanItem_facts h2
  have fR : reMatch qItem c5n3 = [] := qItem_fail _ (by decide)
  have f2 : reMatch qItem (bltLine q2 c5n3) = [c5n3, c5n3] :=
    item_match bulletQ (by decide) q2 c5n3 hdot2 hhd2 hne2
  have f1 : reMatch qItem (bltLine q1 (bltLine q2 c5n3)) =
      [bltLine q2 c5n3, bltLine q2 c5n3] :=
    item_match bulletQ (by decide) q1 _ hdot1 hhd1 hne1
  rcases rep1_two f1 f2 fR with ⟨l, hl⟩
  have hh : reMatch questionsHead (c5qHead ++ bltLine q1 (bltLine q2 c5n3)) =
      [bltLine q1 (bltLine q2 c5n3)] :=
    qHead_match (q1 ++ '\n' :: bltLine q2 c5n3)
  refine ⟨l, ?_⟩
  show (reMatch questionsHead _).flatMap (reMatch (.rep1 qItem)) = _
  rw [hh]
  simp only [List.flatMap_cons, List.flatMap_nil, List.append_nil]
  exact hl

def c5TkBlock (t1 t2 t3 : Str) : Str :=
  c5tkHead ++ ('-' :: ' ' ::
    (t1 ++ '\n' :: ('-' :: ' ' :: (t2 ++ '\n' :: ('-' :: ' ' :: (t3 ++ ['\n']))))))

theorem c5TkBlock_split (t1 t2 t3 R : Str) :
    c5tkHead ++ bltLine t1 (bltLine t2 (bltLine t3 R)) = c5TkBlock t1 t2 t3 ++ R := by
  simp [c5TkBlock, bltLine, List.append_assoc]

theorem c5Doc_structured' (t1 t2 t3 q1 q2 : Str) :
    c5Doc t1 t2 t3 q1 q2 =
      c5n1 ++ (c5tkHead ++ bltLine t1 (bltLine t2 (bltLine t3 (c5REST q1 q2)))) := by
  rw [c5Doc_structured]; rfl

theorem hgTkB : ∀ (c : Char) (x : Str),
    (!(c = '#' || c = '*' || Char.toLower c = 'k') : Bool) = true →
    reMatch takeawaysRE (c :: x) = [] := by
  intro c x hgc
  simp only [Bool.not_eq_true', Bool.or_eq_false_iff, decide_eq_false_iff_not] at hgc
  exact hgTk x hgc.1.1 hgc.1.2 hgc.2

theorem hgQB : ∀ (c : Char) (x : Str),
    (!(c = '#' || c = '*' || Char.toLower c = 'q') : Bool) = true →
    reMatch questionsRE (c :: x) = [] := by
  intro c x hgc
  simp only [Bool.not_eq_true', Bool.or_eq_false_iff, decide_eq_false_iff_not] at hgc
  exact hgQ x hgc.1.1 hgc.1.2 hgc.2

theorem c5_findSplit_tk {t1 t2 t3 q1 q2 : Str}
    (h1 : cleanItem t1 = true) (h2 : cleanItem t2 = true) (h3 : cleanItem t3 = true) :
    findSplit takeawaysRE (c5Doc t1 t2 t3 q1 q2) =
      some (c5n1, c5TkBlock t1 t2 t3, c5REST q1 q2) := by
  rw [c5Doc_structured']
  rw [findSplit_region hgTkB c5n1 _ (by decide)]
  rcases tk_match_full q1 q2 h1 h2 h3 with ⟨l, hl⟩
  have hfs : findSplit takeawaysRE
      (c5tkHead ++ bltLine t1 (bltLine t2 (bltLine t3 (c5REST q1 q2)))) =
      some ([],
        (c5tkHead ++ bltLine t1 (bltLine t2 (bltLine t3 (c5REST q1 q2)))).take
          ((c5tkHead ++ bltLine t1 (bltLine t2 (bltLine t3 (c5REST q1 q2)))).length -
            (c5REST q1 q2).length),
        c5REST q1 q2) := findSplit_at_match hl
  rw [hfs]
  have htake : (c5tkHead ++ bltLine t1 (bltLine t2 (bltLine t3 (c5REST q1 q2)))).take
      ((c5tkHead ++ bltLine t1 (bltLine t2 (bltLine t3 (c5REST q1 q2)))).length -
        (c5REST q1 q2).length) = c5TkBlock t1 t2 t3 := by
    rw [c5TkBlock_split, List.length_append, Nat.add_sub_cancel, List.take_left]
  rw [htake]
  simp

theorem c5REST_noK {q1 q2 : Str} (h1 : cleanItem q1 = true) (h2 : cleanItem q2 = true) :
    noLowerB 'k' (c5REST q1 q2) = true := by
  obtain ⟨-, -, -, -, hk1, -⟩ := cleanItem_facts h1
  obtain ⟨-, -, -, -, hk2, -⟩ := cleanItem_facts h2
  have hb2 : noLowerB 'k' (bltLine q2 c5n3) = true :=
    noLowerB_bltLine (by decide) (by decide) (by decide) hk2 (by decide)
  have hb1 : noLowerB 'k' (bltLine q1 (bltLine q2 c5n3)) = true :=
    noLowerB_bltLine (by decide) (by decide) (by decide) hk1 hb2
  rw [c5REST, noLowerB_append, noLowerB_append]
  simp [hb1, show noLowerB 'k' c5n2 = true from by decide,
    show noLowerB 'k' c5qHead = true from by decide]

theorem c5TkBlock_ne_nil (t1 t2 t3 : Str) : c5TkBlock t1 t2 t3 ≠ [] := by
  apply List.length_pos.mp
  simp [c5TkBlock]

theorem c5_matchAll_tk {t1 t2 t3 q1 q2 : Str}
    (h1 : cleanItem t1 = true) (h2 : cleanItem t2 = true) (h3 : cleanItem t3 = true)
    (hq1 : cleanItem q1 = true) (hq2 : cleanItem q2 = true) :
    matchAllAux takeawaysRE (c5Doc t1 t2 t3 q1 q2).length (c5Doc t1 t2 t3 q1 q2) =
      ([c5TkBlock t1 t2 t3], [c5n1, c5REST q1 q2]) := by
  obtain ⟨K, hK⟩ : ∃ K, (c5Doc t1 t2 t3 q1 q2).length = K + 1 :=
    ⟨(c5Doc t1 t2 t3 q1 q2).length - 1, by
      rw [c5Doc_structured', List.length_append, show c5n1.length = 11 from by decide]
      omega⟩
  rw [hK, matchAllAux_step K (c5_findSplit_tk h1 h2 h3) (c5TkBlock_ne_nil t1 t2 t3)]
  rw [matchAllAux_none (findSplit_tk_none (c5REST_noK hq1 hq2)) K]

theorem c5_tkMatches {t1 t2 t3 q1 q2 : Str}
    (h1 : cleanItem t1 = true) (h2 : cleanItem t2 = true) (h3 : cleanItem t3 = true)
    (hq1 : cleanItem q1 = true) (hq2 : cleanItem q2 = true) :
    jsMatchAll takeawaysRE (c5Doc t1 t2 t3 q1 q2) = [c5TkBlock t1 t2 t3] := by
  rw [jsMatchAll, c5_matchAll_tk h1 h2 h3 hq1 hq2]

theorem c5_content2 {t1 t2 t3 q1 q2 : Str}
    (h1 : cleanItem t1 = true) (h2 : cleanItem t2 = true) (h3 : cleanItem t3 = true)
    (hq1 : cleanItem q1 = true) (hq2 : cleanItem q2 = true) :
    jsReplaceAllRe takeawaysRE ('\n' :: []) (c5Doc t1 t2 t3 q1 q2) =
      c5n1 ++ '\n' :: c5REST q1 q2 := by
  rw [jsReplaceAllRe, c5_matchAll_tk h1 h2 h3 hq1 hq2]
  show c5n1 ++ ('\n' :: []) ++ c5REST q1 q2 = c5n1 ++ '\n' :: c5REST q1 q2
  rw [List.append_assoc]
  rfl

def c5Pre2 : Str := c5n1 ++ ('\n' :: c5n2)

def c5QBlock (q1 q2 : Str) : Str :=
  c5qHead ++ ('-' :: ' ' :: (q1 ++ '\n' :: ('-' :: ' ' :: (q2 ++ ['\n']))))

theorem c5QBlock_split (q1 q2 R : Str) :
    c5qHead ++ bltLine q1 (bltLine q2 R) = c5QBlock q1 q2 ++ R := by
  simp [c5QBlock, bltLine, List.append_assoc]

theorem c5_content2_structured (q1 q2 : Str) :
    c5n1 ++ '\n' :: c5REST q1 q2 =
      c5Pre2 ++ (c5qHead ++ bltLine q1 (bltLine q2 c5n3)) := by
  simp [c5Pre2, c5REST, List.append_assoc]

theorem c5_findSplit_q {q1 q2 : Str}
    (hq1 : cleanItem q1 = true) (hq2 : cleanItem q2 = true) :
    findSplit questionsRE (c5n1 ++ '\n' :: c5REST q1 q2) =
      some (c5Pre2, c5QBlock q1 q2, c5n3) := by
  rw [c5_content2_structured]
  rw [findSplit_region hgQB c5Pre2 _ (by decide)]
  rcases q_match_full hq1 hq2 with ⟨l, hl⟩
  have hfs : findSplit questionsRE (c5qHead ++ bltLine q1 (bltLine q2 c5n3)) =
      some ([],
        (c5qHead ++ bltLine q1 (bltLine q2 c5n3)).take
          ((c5qHead ++ bltLine q1 (bltLine q2 c5n3)).length - c5n3.length),
        c5n3) := findSplit_at_match hl
  rw [hfs]
  have htake : (c5qHead ++ bltLine q1 (bltLine q2 c5n3)).take
      ((c5qHead ++ bltLine q1 (bltLine q2 c5n3)).length - c5n3.length) =
      c5QBlock q1 q2 := by
    rw [c5QBlock_split, List.length_append, Nat.add_sub_cancel, List.take_left]
  rw [htake]
  simp

theorem c5QBlock_ne_nil (q1 q2 : Str) : c5QBlock q1 q2 ≠ [] := by
  apply List.length_pos.mp
  simp [c5QBlock]

theorem c5_matchAll_q {q1 q2 : Str}
    (hq1 : cleanItem q1 = true) (hq2 : cleanItem q2 = true) :
    matchAllAux questionsRE (c5n1 ++ '\n' :: c5REST q1 q2).length
      (c5n1 ++ '\n' :: c5REST q1 q2) = ([c5QBlock q1 q2], [c5Pre2, c5n3]) := by
  obtain ⟨K, hK⟩ : ∃ K, (c5n1 ++ '\n' :: c5REST q1 q2).length = K + 1 :=
    ⟨(c5n1 ++ '\n' :: c5REST q1 q2).length - 1, by
      rw [List.length_append, show c5n1.length = 11 from by decide]
      omega⟩
  rw [hK, matchAllAux_step K (c5_findSplit_q hq1 hq2) (c5QBlock_ne_nil q1 q2)]
  rw [matchAllAux_none (findSplit_q_none (by decide)) K]

theorem scan_span (b : Char → Bool) (hb : b '-' = true) {t R : Str}
    (ht : t.all isDotChar = true) (hhd : isWsChar (t.headD 'x') = false) (hne : t ≠ []) :
    findSplit (.seq (.cls b) (.seq (.clsStar isWsChar) (.clsPlus isDotChar)))
      ('-' :: ' ' :: (t ++ '\n' :: R)) = some ([], '-' :: ' ' :: t, '\n' :: R) := by
  rcases scanItem_match b hb t R ht hhd hne with ⟨l, hl⟩
  have hfs := findSplit_at_match hl
  rw [hfs]
  have hsplit : '-' :: ' ' :: (t ++ '\n' :: R) = ('-' :: ' ' :: t) ++ ('\n' :: R) := by
    simp
  have htake : ('-' :: ' ' :: (t ++ '\n' :: R)).take
      (('-' :: ' ' :: (t ++ '\n' :: R)).length - ('\n' :: R).length) =
      '-' :: ' ' :: t := by
    rw [hsplit, List.length_append, Nat.add_sub_cancel, List.take_left]
  rw [htake]

theorem hgScanTkB : ∀ (c : Char) (x : Str), (!bulletTk c) = true →
    reMatch tkItemScanRE (c :: x) = [] := by
  intro c x h
  exact scanTk_fail x (by simpa using h)

theorem hgScanQB : ∀ (c : Char) (x : Str), (!bulletQ c) = true →
    reMatch qItemScanRE (c :: x) = [] := by
  intro c x h
  exact scanQ_fail x (by simpa using h)

theorem scanTk_step {c : Char} {x : Str} (h : bulletTk c = false) :
    findSplit tkItemScanRE (c :: x) =
      (findSplit tkItemScanRE x).map (fun y => (c :: y.1, y.2.1, y.2.2)) :=
  findSplit_skip (scanTk_fail x h)

theorem scanQ_step {c : Char} {x : Str} (h : bulletQ c = false) :
    findSplit qItemScanRE (c :: x) =
      (findSplit qItemScanRE x).map (fun y => (c :: y.1, y.2.1, y.2.2)) :=
  findSplit_skip (scanQ_fail x h)

theorem scanTk_nil : findSplit tkItemScanRE [] = none := rfl

theorem scanQ_nil : findSplit qItemScanRE [] = none := rfl

def tkTail3 (t3 : Str) : Str := '-' :: ' ' :: (t3 ++ ['\n'])
def tkTail2 (t2 t3 : Str) : Str := '-' :: ' ' :: (t2 ++ '\n' :: tkTail3 t3)

theorem c5_items_scan_tk {t1 t2 t3 : Str}
    (h1 : cleanItem t1 = true) (h2 : cleanItem t2 = true) (h3 : cleanItem t3 = true) :
    jsMatchAll tkItemScanRE (c5TkBlock t1 t2 t3) =
      ['-' :: ' ' :: t1, '-' :: ' ' :: t2, '-' :: ' ' :: t3] := by
  obtain ⟨hne1, hdot1, hhd1, -, -, -⟩ := cleanItem_facts h1
  obtain ⟨hne2, hdot2, hhd2, -, -, -⟩ := cleanItem_facts h2
  obtain ⟨hne3, hdot3, hhd3, -, -, -⟩ := cleanItem_facts h3
  have fsT3 : findSplit tkItemScanRE (tkTail3 t3) = some ([], '-' :: ' ' :: t3, ['\n']) :=
    scan_span bulletTk (by decide) hdot3 hhd3 hne3
  have fsT2 : findSplit tkItemScanRE (tkTail2 t2 t3) =
      some ([], '-' :: ' ' :: t2, '\n' :: tkTail3 t3) :=
    scan_span bulletTk (by decide) hdot2 hhd2 hne2
  have fsT1 : findSplit tkItemScanRE ('-' :: ' ' :: (t1 ++ '\n' :: tkTail2 t2 t3)) =
      some ([], '-' :: ' ' :: t1, '\n' :: tkTail2 t2 t3) :=
    scan_span bulletTk (by decide) hdot1 hhd1 hne1
  have fs0 : findSplit tkItemScanRE (c5TkBlock t1 t2 t3) =
      some (c5tkHead, '-' :: ' ' :: t1, '\n' :: tkTail2 t2 t3) := by
    rw [show c5TkBlock t1 t2 t3 =
      c5tkHead ++ ('-' :: ' ' :: (t1 ++ '\n' :: tkTail2 t2 t3)) from rfl]
    rw [findSplit_region hgScanTkB c5tkHead _ (by decide), fsT1]
    simp
  have fs1 : findSplit tkItemScanRE ('\n' :: tkTail2 t2 t3) =
      some (['\n'], '-' :: ' ' :: t2, '\n' :: tkTail3 t3) := by
    rw [scanTk_step (by decide), fsT2]
    simp
  have fs2 : findSplit tkItemScanRE ('\n' :: tkTail3 t3) =
      some (['\n'], '-' :: ' ' :: t3, ['\n']) := by
    rw [scanTk_step (by decide), fsT3]
    simp
  have fs3 : findSplit tkItemScanRE ['\n'] = none := by
    rw [scanTk_step (by decide), scanTk_nil]
    rfl
  obtain ⟨K, hK⟩ : ∃ K, (c5TkBlock t1 t2 t3).length = K + 1 + 1 + 1 :=
    ⟨(c5TkBlock t1 t2 t3).length - 3, by simp [c5TkBlock]; omega⟩
  rw [jsMatchAll, hK]
  rw [matchAllAux_step (K + 1 + 1) fs0 (List.cons_ne_nil _ _)]
  rw [matchAllAux_step (K + 1) fs1 (List.cons_ne_nil _ _)]
  rw [matchAllAux_step K fs2 (List.cons_ne_nil _ _)]
  rw [matchAllAux_none fs3 K]

def qTail2 (q2 : Str) : Str := '-' :: ' ' :: (q2 ++ ['\n'])

theorem c5_items_scan_q {q1 q2 : Str}
    (h1 : cleanItem q1 = true) (h2 : cleanItem q2 = true) :
    jsMatchAll qItemScanRE (c5QBlock q1 q2) =
      ['-' :: ' ' :: q1, '-' :: ' ' :: q2] := by
  obtain ⟨hne1, hdot1, hhd1, -, -, -⟩ := cleanItem_facts h1
  obtain ⟨hne2, hdot2, hhd2, -, -, -⟩ := cleanItem_facts h2
  have fsQ2 : findSplit qItemScanRE (qTail2 q2) = some ([], '-' :: ' ' :: q2, ['\n']) :=
    scan_span bulletQ (by decide) hdot2 hhd2 hne2
  have fsQ1 : findSplit qItemScanRE ('-' :: ' ' :: (q1 ++ '\n' :: qTail2 q2)) =
      some ([], '-' :: ' ' :: q1, '\n' :: qTail2 q2) :=
    scan_span bulletQ (by decide) hdot1 hhd1 hne1
  have fs0 : findSplit qItemScanRE (c5QBlock q1 q2) =
      some (c5qHead, '-' :: ' ' :: q1, '\n' :: qTail2 q2) := by
    rw [show c5QBlock q1 q2 = c5qHead ++ ('-' :: ' ' :: (q1 ++ '\n' :: qTail2 q2)) from rfl]
    rw [findSplit_region hgScanQB c5qHead _ (by decide), fsQ1]
    simp
  have fs1 : findSplit qItemScanRE ('\n' :: qTail2 q2) =
      some (['\n'], '-' :: ' ' :: q2, ['\n']) := by
    rw [scanQ_step (by decide), fsQ2]
    simp
  have fs2 : findSplit qItemScanRE ['\n'] = none := by
    rw [scanQ_step (by decide), scanQ_nil]
    rfl
  obtain ⟨K, hK⟩ : ∃ K, (c5QBlock q1 q2).length = K + 1 + 1 :=
    ⟨(c5QBlock q1 q2).length - 2, by simp [c5QBlock]; omega⟩
  rw [jsMatchAll, hK]
  rw [matchAllAux_step (K + 1) fs0 (List.cons_ne_nil _ _)]
  rw [matchAllAux_step K fs1 (List.cons_ne_nil _ _)]
  rw [matchAllAux_none fs2 K]

theorem tk_strip_trim {t : Str} (h : cleanItem t = true) :
    jsTrim (stripBulletOne bulletTk ('-' :: ' ' :: t)) = t := by
  obtain ⟨-, -, hhd, hlast, -, -⟩ := cleanItem_facts h
  rw [stripBulletOne_item (by decide) hhd]
  exact jsTrim_eq_self hhd hlast

theorem q_strip_trim {t : Str} (h : cleanItem t = true) :
    jsTrim (stripBulletsPlus bulletQ ('-' :: ' ' :: t)) = t := by
  obtain ⟨-, -, hhd, hlast, -, -⟩ := cleanItem_facts h
  rw [stripBulletsPlus_item hhd]
  exact jsTrim_eq_self hhd hlast

theorem cleanItem_not_empty {t : Str} (h : cleanItem t = true) : t.isEmpty = false := by
  obtain ⟨hne, -, -, -, -, -⟩ := cleanItem_facts h
  cases t with
  | nil => exact absurd rfl hne
  | cons a as => rfl

theorem c5Doc_noV {t1 t2 t3 q1 q2 : Str}
    (h1 : cleanItem t1 = true) (h2 : cleanItem t2 = true) (h3 : cleanItem t3 = true)
    (hq1 : cleanItem q1 = true) (hq2 : cleanItem q2 = true) :
    noLowerB 'v' (c5Doc t1 t2 t3 q1 q2) = true := by
  obtain ⟨-, -, -, -, -, hv1⟩ := cleanItem_facts h1
  obtain ⟨-, -, -, -, -, hv2⟩ := cleanItem_facts h2
  obtain ⟨-, -, -, -, -, hv3⟩ := cleanItem_facts h3
  obtain ⟨-, -, -, -, -, hvq1⟩ := cleanItem_facts hq1
  obtain ⟨-, -, -, -, -, hvq2⟩ := cleanItem_facts hq2
  have hbq2 : noLowerB 'v' (bltLine q2 c5n3) = true :=
    noLowerB_bltLine (by decide) (by decide) (by decide) hvq2 (by decide)
  have hbq1 : noLowerB 'v' (bltLine q1 (bltLine q2 c5n3)) = true :=
    noLowerB_bltLine (by decide) (by decide) (by decide) hvq1 hbq2
  have hrest : noLowerB 'v' (c5REST q1 q2) = true := by
    rw [c5REST, noLowerB_append, noLowerB_append]
    simp [hbq1, show noLowerB 'v' c5n2 = true from by decide,
      show noLowerB 'v' c5qHead = true from by decide]
  have hb3 : noLowerB 'v' (bltLine t3 (c5REST q1 q2)) = true :=
    noLowerB_bltLine (by decide) (by decide) (by decide) hv3 hrest
  have hb2 : noLowerB 'v' (bltLine t2 (bltLine t3 (c5REST q1 q2))) = true :=
    noLowerB_bltLine (by decide) (by decide) (by decide) hv2 hb3
  have hb1 : noLowerB 'v' (bltLine t1 (bltLine t2 (bltLine t3 (c5REST q1 q2)))) = true :=
    noLowerB_bltLine (by decide) (by decide) (by decide) hv1 hb2
  rw [c5Doc_structured', noLowerB_append, noLowerB_append]
  simp [hb1, show noLowerB 'v' c5n1 = true from by decide,
    show noLowerB 'v' c5tkHead = true from by decide]

theorem c5_extract {t1 t2 t3 q1 q2 : Str}
    (h1 : cleanItem t1 = true) (h2 : cleanItem t2 = true) (h3 : cleanItem t3 = true)
    (hq1 : cleanItem q1 = true) (hq2 : cleanItem q2 = true) :
    extractExecutiveInsights (c5Doc t1 t2 t3 q1 q2) = ([], c5Doc t1 t2 t3 q1 q2) := by
  have hins : findInsightsSplit (c5Doc t1 t2 t3 q1 q2) = none :=
    findInsightsSplit_none (c5Doc_noV h1 h2 h3 hq1 hq2)
  simp [extractExecutiveInsights, hins]

set_option maxRecDepth 40000 in
theorem c5_parse {t1 t2 t3 q1 q2 : Str}
    (h1 : cleanItem t1 = true) (h2 : cleanItem t2 = true) (h3 : cleanItem t3 = true)
    (hq1 : cleanItem q1 = true) (hq2 : cleanItem q2 = true) :
    parseSpecialSections (c5Doc t1 t2 t3 q1 q2) =
      ⟨"Main copy.\n\nFollow up.\n\nFinal words.".data, [t1, t2, t3], [q1, q2], []⟩ := by
  have hext := c5_extract h1 h2 h3 hq1 hq2
  have htkm := c5_tkMatches h1 h2 h3 hq1 hq2
  have hrepl := c5_content2 h1 h2 h3 hq1 hq2
  have hqm : jsMatchAll questionsRE (c5n1 ++ '\n' :: c5REST q1 q2) = [c5QBlock q1 q2] := by
    rw [jsMatchAll, c5_matchAll_q hq1 hq2]
  have hqrepl : jsReplaceAllRe questionsRE ('\n' :: []) (c5n1 ++ '\n' :: c5REST q1 q2) =
      c5Pre2 ++ '\n' :: c5n3 := by
    rw [jsReplaceAllRe, c5_matchAll_q hq1 hq2]
    show c5Pre2 ++ ('\n' :: []) ++ c5n3 = _
    rw [List.append_assoc]
    rfl
  have htkitems := c5_items_scan_tk h1 h2 h3
  have hqitems := c5_items_scan_q hq1 hq2
  have htrim : jsTrim (c5Pre2 ++ '\n' :: c5n3) =
      "Main copy.\n\nFollow up.\n\nFinal words.".data := by decide
  simp only [parseSpecialSections, hext, htkm, hrepl, hqm, hqrepl, htkitems, hqitems,
    List.isEmpty_cons, List.flatMap_cons, List.flatMap_nil, List.append_nil,
    List.filterMap_cons, tk_strip_trim h1, tk_strip_trim h2, tk_strip_trim h3,
    q_strip_trim hq1, q_strip_trim hq2, cleanItem_not_empty h1, cleanItem_not_empty h2,
    cleanItem_not_empty h3, cleanItem_not_empty hq1, cleanItem_not_empty hq2,
    Bool.false_eq_true, if_false, List.filterMap_nil, htrim]

-- ===== multi-block scenario =====

def c5DocMulti (u1 u2 : Str) : Str :=
  "### Key Takeaways\n- ".data ++ u1 ++ "\n### Key Takeaways\n- ".data ++ u2 ++ "\n".data

def c5UBlock (u : Str) : Str := c5tkHead ++ ('-' :: ' ' :: (u ++ ['\n']))

theorem c5DocMulti_structured (u1 u2 : Str) :
    c5DocMulti u1 u2 = c5tkHead ++ bltLine u1 (c5UBlock u2) := by
  simp only [c5DocMulti, List.append_assoc]
  rfl

theorem c5UBlock_split (u R : Str) :
    c5tkHead ++ bltLine u R = c5UBlock u ++ R := by
  simp [c5UBlock, bltLine, List.append_assoc]

theorem tk_match_one {u R : Str} (hu : cleanItem u = true)
    (hR : reMatch tkItem R = []) :
    ∃ l, reMatch takeawaysRE (c5tkHead ++ bltLine u R) = R :: l := by
  obtain ⟨hne, hdot, hhd, -, -, -⟩ := cleanItem_facts hu
  have f1 : reMatch tkItem (bltLine u R) = [R, R] :=
    item_match bulletTk (by decide) u R hdot hhd hne
  rcases rep1_one f1 hR with ⟨l, hl⟩
  have hh : reMatch takeawaysHead (c5tkHead ++ bltLine u R) = [bltLine u R] :=
    tkHead_match (u ++ '\n' :: R)
  refine ⟨l, ?_⟩
  show (reMatch takeawaysHead _).flatMap (reMatch (.rep1 tkItem)) = _
  rw [hh]
  simp only [List.flatMap_cons, List.flatMap_nil, List.append_nil]
  exact hl

theorem c5UBlock_ne_nil (u : Str) : c5UBlock u ≠ [] := by
  apply List.length_pos.mp
  simp [c5UBlock]

theorem c5_findSplit_multi1 {u1 u2 : Str} (hu1 : cleanItem u1 = true) :
    findSplit takeawaysRE (c5DocMulti u1 u2) = some ([], c5UBlock u1, c5UBlock u2) := by
  rw [c5DocMulti_structured]
  have hR : reMatch tkItem (c5UBlock u2) = [] := tkItem_fail _ (by decide)
  rcases tk_match_one hu1 hR with ⟨l, hl⟩
  have hfs : findSplit takeawaysRE (c5tkHead ++ bltLine u1 (c5UBlock u2)) =
      some ([],
        (c5tkHead ++ bltLine u1 (c5UBlock u2)).take
          ((c5tkHead ++ bltLine u1 (c5UBlock u2)).length - (c5UBlock u2).length),
        c5UBlock u2) := findSplit_at_match hl
  rw [hfs]
  have htake : (c5tkHead ++ bltLine u1 (c5UBlock u2)).take
      ((c5tkHead ++ bltLine u1 (c5UBlock u2)).length - (c5UBlock u2).length) =
      c5UBlock u1 := by
    rw [c5UBlock_split, List.length_append, Nat.add_sub_cancel, List.take_left]
  rw [htake]

theorem c5_findSplit_multi2 {u2 : Str} (hu2 : cleanItem u2 = true) :
    findSplit takeawaysRE (c5UBlock u2) = some ([], c5UBlock u2, []) := by
  have hl2 : c5UBlock u2 = c5tkHead ++ bltLine u2 [] := rfl
  rcases tk_match_one hu2 tkItem_nil with ⟨l, hl⟩
  have hfs : findSplit takeawaysRE (c5tkHead ++ bltLine u2 []) =
      some ([],
        (c5tkHead ++ bltLine u2 []).take
          ((c5tkHead ++ bltLine u2 []).length - ([] : Str).length),
        ([] : Str)) := findSplit_at_match hl
  rw [hl2, hfs]
  have htake : (c5tkHead ++ bltLine u2 []).take
      ((c5tkHead ++ bltLine u2 []).length - ([] : Str).length) =
      c5tkHead ++ bltLine u2 [] := by
    rw [List.length_nil, Nat.sub_zero, List.take_length]
  rw [htake]

theorem c5_matchAll_multi {u1 u2 : Str}
    (hu1 : cleanItem u1 = true) (hu2 : cleanItem u2 = true) :
    matchAllAux takeawaysRE (c5DocMulti u1 u2).length (c5DocMulti u1 u2) =
      ([c5UBlock u1, c5UBlock u2], [[], [], []]) := by
  obtain ⟨K, hK⟩ : ∃ K, (c5DocMulti u1 u2).length = K + 1 + 1 :=
    ⟨(c5DocMulti u1 u2).length - 2, by
      rw [c5DocMulti_structured, List.length_append,
        show c5tkHead.length = 18 from by decide]
      omega⟩
  rw [hK, matchAllAux_step (K + 1) (c5_findSplit_multi1 hu1) (c5UBlock_ne_nil u1)]
  rw [matchAllAux_step K (c5_findSplit_multi2 hu2) (c5UBlock_ne_nil u2)]
  rw [matchAllAux_none (show findSplit takeawaysRE [] = none from by decide) K]

theorem c5_items_scan_one {u : Str} (hu : cleanItem u = true) :
    jsMatchAll tkItemScanRE (c5UBlock u) = ['-' :: ' ' :: u] := by
  obtain ⟨hne, hdot, hhd, -, -, -⟩ := cleanItem_facts hu
  have fsU : findSplit tkItemScanRE ('-' :: ' ' :: (u ++ '\n' :: [])) =
      some ([], '-' :: ' ' :: u, ['\n']) :=
    scan_span bulletTk (by decide) hdot hhd hne
  have fs0 : findSplit tkItemScanRE (c5UBlock u) =
      some (c5tkHead, '-' :: ' ' :: u, ['\n']) := by
    rw [show c5UBlock u = c5tkHead ++ ('-' :: ' ' :: (u ++ '\n' :: [])) from rfl]
    rw [findSplit_region hgScanTkB c5tkHead _ (by decide), fsU]
    simp
  have fs1 : findSplit tkItemScanRE ['\n'] = none := by
    rw [scanTk_step (by decide), scanTk_nil]
    rfl
  obtain ⟨K, hK⟩ : ∃ K, (c5UBlock u).length = K + 1 :=
    ⟨(c5UBlock u).length - 1, by simp [c5UBlock]; omega⟩
  rw [jsMatchAll, hK]
  rw [matchAllAux_step K fs0 (List.cons_ne_nil _ _)]
  rw [matchAllAux_none fs1 K]

theorem c5DocMulti_noV {u1 u2 : Str}
    (hu1 : cleanItem u1 = true) (hu2 : cleanItem u2 = true) :
    noLowerB 'v' (c5DocMulti u1 u2) = true := by
  obtain ⟨-, -, -, -, -, hv1⟩ := cleanItem_facts hu1
  obtain ⟨-, -, -, -, -, hv2⟩ := cleanItem_facts hu2
  have hub : noLowerB 'v' (c5UBlock u2) = true := by
    rw [c5UBlock, noLowerB_append]
    simp [noLowerB_cons, noLowerB_append, hv2,
      show noLowerB 'v' c5tkHead = true from by decide,
      show noLowerB 'v' ['\n'] = true from by decide]
  have hb1 : noLowerB 'v' (bltLine u1 (c5UBlock u2)) = true :=
    noLowerB_bltLine (by decide) (by decide) (by decide) hv1 hub
  rw [c5DocMulti_structured, noLowerB_append]
  simp [hb1, show noLowerB 'v' c5tkHead = true from by decide]

set_option maxRecDepth 40000 in
theorem c5_parse_multi {u1 u2 : Str}
    (hu1 : cleanItem u1 = true) (hu2 : cleanItem u2 = true) :
    parseSpecialSections (c5DocMulti u1 u2) = ⟨[], [u1, u2], [], []⟩ := by
  have hins : findInsightsSplit (c5DocMulti u1 u2) = none :=
    findInsightsSplit_none (c5DocMulti_noV hu1 hu2)
  have hext : extractExecutiveInsights (c5DocMulti u1 u2) = ([], c5DocMulti u1 u2) := by
    simp [extractExecutiveInsights, hins]
  have htkm : jsMatchAll takeawaysRE (c5DocMulti u1 u2) = [c5UBlock u1, c5UBlock u2] := by
    rw [jsMatchAll, c5_matchAll_multi hu1 hu2]
  have hrepl : jsReplaceAllRe takeawaysRE ('\n' :: []) (c5DocMulti u1 u2) = ['\n', '\n'] := by
    rw [jsReplaceAllRe, c5_matchAll_multi hu1 hu2]
    rfl
  have hqm : jsMatchAll questionsRE ['\n', '\n'] = [] := by
    rw [jsMatchAll, matchAllAux_none (findSplit_q_none (by decide)) (['\n', '\n'].length)]
  have hitems1 := c5_items_scan_one hu1
  have hitems2 := c5_items_scan_one hu2
  have htrim : jsTrim ['\n', '\n'] = [] := by decide
  simp only [parseSpecialSections, hext, htkm, hrepl, hqm, hitems1, hitems2,
    List.isEmpty_cons, List.isEmpty_nil, List.flatMap_cons, List.flatMap_nil,
    List.append_nil, List.filterMap_cons, List.filterMap_nil,
    tk_strip_trim hu1, tk_strip_trim hu2,
    cleanItem_not_empty hu1, cleanItem_not_empty hu2,
    Bool.false_eq_true, if_false, if_true, htrim, List.cons_append, List.nil_append,
    List.singleton_append]

/-- C5: special-block extraction by parseSpecialSections
(src/src/components/report-section.tsx lines 330-377). For every choice of
bullet-item texts over the safe item alphabet (lowercase letters other than
the pattern-critical e, k, q, t, v, plus interior spaces; nonempty and not
space-bordered), a section text containing a single "### Key Takeaways"
heading followed by 3 bullet items and a "### Questions for Management"
heading followed by 2 bullet items parses to exactly those 3 takeaway texts
and those 2 question texts (each stripped of its bullet marker and
non-empty), with a remaining narrative in which both blocks have been
replaced by blank lines, so that neither block's heading nor items remain;
and a section containing two "### Key Takeaways" blocks yields the items of
both blocks concatenated in document order. -/
theorem c5_special_blocks (t1 t2 t3 q1 q2 u1 u2 : Str)
    (h1 : cleanItem t1 = true) (h2 : cleanItem t2 = true) (h3 : cleanItem t3 = true)
    (hq1 : cleanItem q1 = true) (hq2 : cleanItem q2 = true)
    (hu1 : cleanItem u1 = true) (hu2 : cleanItem u2 = true) :
    parseSpecialSections (c5Doc t1 t2 t3 q1 q2) =
      ⟨"Main copy.\n\nFollow up.\n\nFinal words.".data, [t1, t2, t3], [q1, q2], []⟩ ∧
    parseSpecialSections (c5DocMulti u1 u2) = ⟨[], [u1, u2], [], []⟩ :=
  ⟨c5_parse h1 h2 h3 hq1 hq2, c5_parse_multi hu1 hu2⟩

/-- Witness for C5: the concrete scenario with takeaways "margins up",
"cash flow", "payroll gap" and questions "why margins", "why cash", and the
two-block document with items "margins up" and "cash flow". -/
theorem c5_special_blocks_witness :
    cleanItem "margins up".data = true ∧ cleanItem "cash flow".data = true ∧
    cleanItem "payroll gap".data = true ∧ cleanItem "why margins".data = true ∧
    cleanItem "why cash".data = true ∧
    (parseSpecialSections (c5Doc "margins up".data "cash flow".data "payroll gap".data
        "why margins".data "why cash".data) =
      ⟨"Main copy.\n\nFollow up.\n\nFinal words.".data,
       ["margins up".data, "cash flow".data, "payroll gap".data],
       ["why margins".data, "why cash".data], []⟩ ∧
     parseSpecialSections (c5DocMulti "margins up".data "cash flow".data) =
      ⟨[], ["margins up".data, "cash flow".data], [], []⟩) :=
  ⟨by decide, by decide, by decide, by decide, by decide,
   c5_special_blocks _ _ _ _ _ _ _ (by decide) (by decide) (by decide)
     (by decide) (by decide) (by decide) (by decide)⟩
